import Mathlib

/-!
Verification of the rectangle-packing core of the `rectpack2d` repository.

The Go sources are shallowly embedded: Go `int` is modelled as `Int`
(no overflow is relevant at the studied inputs; the `math.MaxInt` /
`math.MinInt` sentinels are kept as exact constants), slices are `List`s,
in-place mutation is explicit state passing, and `for` loops are fuel-based
structural recursions whose fuel provably dominates the number of
iterations.  Go `float64` values of the Skyline engine are modelled as
exact fractions of integers (see `F` below).
-/

namespace RectPack2D

/-! ### Geometry primitives (src/rectpack/rect.go) -/

/-- `Size2D` from rect.go: a width/height pair with an opaque caller id. -/
structure Size2D where
  width : Int
  height : Int
  id : Int
deriving DecidableEq, Repr

/-- `Rect2D` from rect.go: top-left corner, size, rotation bookkeeping.
The embedded `Point2D`/`Size2D` fields are flattened. -/
structure Rect2D where
  x : Int
  y : Int
  width : Int
  height : Int
  id : Int
  isRotated : Bool
  rotatedCount : Int
deriving DecidableEq, Repr

/-- `Size2D.Area`. -/
def sizeArea (sz : Size2D) : Int := sz.width * sz.height

/-- `Rect2D.Area` (via the embedded `Size2D`). -/
def rectArea (r : Rect2D) : Int := r.width * r.height

/-- `Rect2D.Intersects`: strict overlap test, exactly the four strict
inequalities of rect.go. -/
def intersects (r rect : Rect2D) : Prop :=
  rect.x < r.x + r.width ∧ r.x < rect.x + rect.width ∧
  rect.y < r.y + r.height ∧ r.y < rect.y + rect.height

instance (r rect : Rect2D) : Decidable (intersects r rect) := by
  unfold intersects; infer_instance

/-- `Rect2D.ContainsRect`: inclusive containment test of rect.go. -/
def containsRect (r rect : Rect2D) : Prop :=
  r.x ≤ rect.x ∧ rect.x + rect.width ≤ r.x + r.width ∧
  r.y ≤ rect.y ∧ rect.y + rect.height ≤ r.y + r.height

instance (r rect : Rect2D) : Decidable (containsRect r rect) := by
  unfold containsRect; infer_instance

/-- `padSize`: grow a size by `padding` on each axis (only when `padding > 0`). -/
def padSizeF (sz : Size2D) (padding : Int) : Size2D :=
  if padding ≤ 0 then sz
  else { sz with width := sz.width + padding, height := sz.height + padding }

/-- `unpadRect`: remove the padding from a placed rectangle; a rectangle
touching the bin's left/top edge is shifted and shrunk by `2*padding`
on that axis, an interior one is shrunk by `padding`. -/
def unpadRectF (rect : Rect2D) (padding : Int) : Rect2D :=
  if padding ≤ 0 then rect
  else
    let r1 :=
      if rect.x = 0 then { rect with x := rect.x + padding, width := rect.width - padding * 2 }
      else { rect with width := rect.width - padding }
    if r1.y = 0 then { r1 with y := r1.y + padding, height := r1.height - padding * 2 }
    else { r1 with height := r1.height - padding }

/-! ### Guillotine engine (src/rectpack/guillotine.go) -/

/-- Go's `math.MaxInt` on a 64-bit platform. -/
def maxIntGo : Int := 9223372036854775807

/-- Go's `math.MinInt` on a 64-bit platform. -/
def minIntGo : Int := -9223372036854775808

/-- The score-function closure selected by `newGuillotine` from the
fit-rule bits of the heuristic. -/
inductive ScoreSel where
  | bestShort
  | bestLong
  | worstArea
  | worstShort
  | worstLong
  | bestArea
deriving DecidableEq, Repr

/-- `scoreBestArea`. -/
def scoreBestArea (width height : Int) (freeRect : Rect2D) : Int :=
  freeRect.width * freeRect.height - width * height

/-- `scoreBestShort`. -/
def scoreBestShort (width height : Int) (freeRect : Rect2D) : Int :=
  min |freeRect.width - width| |freeRect.height - height|

/-- `scoreBestLong`. -/
def scoreBestLong (width height : Int) (freeRect : Rect2D) : Int :=
  max |freeRect.width - width| |freeRect.height - height|

/-- Evaluate the selected score function (the worst-fit variants negate
the corresponding best-fit score, as the closures in `newGuillotine` do). -/
def scoreEval (sc : ScoreSel) (width height : Int) (freeRect : Rect2D) : Int :=
  match sc with
  | .bestShort => scoreBestShort width height freeRect
  | .bestLong => scoreBestLong width height freeRect
  | .worstArea => -(scoreBestArea width height freeRect)
  | .worstShort => -(scoreBestShort width height freeRect)
  | .worstLong => -(scoreBestLong width height freeRect)
  | .bestArea => scoreBestArea width height freeRect

/-- Heuristic bitmask constants (src/unnamed/part_002). -/
def typeMask : Nat := 0x000F

/-- Fit-rule field of the heuristic bitmask. -/
def fitMask : Nat := 0x00F0

/-- Split-rule field of the heuristic bitmask. -/
def splitMask : Nat := 0x0F00

/-- The `switch heuristic & fitMask` of `newGuillotine`. -/
def chooseScore (heuristic : Nat) : ScoreSel :=
  let bits := heuristic &&& fitMask
  if bits = 0x00 then .bestShort        -- BestShortSideFit
  else if bits = 0x10 then .bestLong    -- BestLongSideFit
  else if bits = 0x50 then .worstArea   -- WorstAreaFit
  else if bits = 0x60 then .worstShort  -- WorstShortSideFit
  else if bits = 0x70 then .worstLong   -- WorstLongSideFit
  else .bestArea                        -- default

/-- State of `guillotinePack` (including the `algorithmBase` fields).
`rotCount` models the `idMaptoRotateCount` map with default value `0`. -/
structure GuillotineState where
  maxWidth : Int
  maxHeight : Int
  usedArea : Int
  allowRotate : Bool
  packed : List Rect2D
  freeRects : List Rect2D
  merge : Bool
  splitMethod : Nat
  score : ScoreSel
  rotCount : Int → Int

/-- `guillotinePack.Reset`: reset the base state and make the free list a
single full-bin rectangle. -/
def guillotineReset (st : GuillotineState) (width height : Int) : GuillotineState :=
  { st with maxWidth := width, maxHeight := height, usedArea := 0, packed := [],
            freeRects := [⟨0, 0, width, height, 0, false, 0⟩] }

/-- `newGuillotine` (merge on, split rule and score from the heuristic bits),
followed by `AllowRotate`. -/
def newGuillotineF (width height : Int) (heuristic : Nat) (rot : Bool) : GuillotineState :=
  guillotineReset
    { maxWidth := 0, maxHeight := 0, usedArea := 0, allowRotate := rot, packed := [],
      freeRects := [], merge := true, splitMethod := heuristic &&& splitMask,
      score := chooseScore heuristic, rotCount := fun _ => 0 }
    width height

/-- The running "best candidate" of the selection scan in
`guillotinePack.Insert`: score, free-rectangle index, size index, rotated flag. -/
structure Best where
  score : Int
  freeIdx : Nat
  rectIdx : Nat
  flipped : Bool
deriving DecidableEq, Repr

/-- Inner loop of the selection scan of `guillotinePack.Insert`: scan the
remaining sizes (starting at index `j`) against the free rectangle at index
`i`.  A perfect (possibly rotated) match sets the best score to `math.MinInt`
and breaks out of the inner loop only. -/
def scanSizes (sc : ScoreSel) (allowRotate : Bool) (padding : Int) (freeRect : Rect2D)
    (i : Nat) : List Size2D → Nat → Best → Best
  | [], _, best => best
  | sz :: rest, j, best =>
    let size := padSizeF sz padding
    if size.width = freeRect.width ∧ size.height = freeRect.height then
      ⟨minIntGo, i, j, false⟩
    else if allowRotate ∧ size.height = freeRect.width ∧ size.width = freeRect.height then
      ⟨minIntGo, i, j, true⟩
    else if size.width ≤ freeRect.width ∧ size.height ≤ freeRect.height then
      let score := scoreEval sc size.width size.height freeRect
      scanSizes sc allowRotate padding freeRect i rest (j + 1)
        (if score < best.score then ⟨score, i, j, false⟩ else best)
    else if allowRotate ∧ size.height ≤ freeRect.width ∧ size.width ≤ freeRect.height then
      let score := scoreEval sc size.height size.width freeRect
      scanSizes sc allowRotate padding freeRect i rest (j + 1)
        (if score < best.score then ⟨score, i, j, true⟩ else best)
    else
      scanSizes sc allowRotate padding freeRect i rest (j + 1) best

/-- Outer loop of the selection scan: iterate over the free rectangles. -/
def scanFree (sc : ScoreSel) (allowRotate : Bool) (padding : Int) (sizes : List Size2D) :
    List Rect2D → Nat → Best → Best
  | [], _, best => best
  | f :: rest, i, best =>
    scanFree sc allowRotate padding sizes rest (i + 1)
      (scanSizes sc allowRotate padding f i sizes 0 best)

/-- One full selection scan of `guillotinePack.Insert` (initial best score
`math.MaxInt`). -/
def findBest (st : GuillotineState) (padding : Int) (sizes : List Size2D) : Best :=
  scanFree st.score st.allowRotate padding sizes st.freeRects 0 ⟨maxIntGo, 0, 0, false⟩

/-- `guillotinePack.splitAlongAxis` as the list of appended child
free rectangles (each appended only when both dimensions are positive). -/
def splitAlongAxisF (freeRect placedRect : Rect2D) (splitHorizontal : Bool) : List Rect2D :=
  let bottom : Rect2D :=
    { x := freeRect.x, y := freeRect.y + placedRect.height,
      width := if splitHorizontal then freeRect.width else placedRect.width,
      height := freeRect.height - placedRect.height,
      id := 0, isRotated := false, rotatedCount := 0 }
  let right : Rect2D :=
    { x := freeRect.x + placedRect.width, y := freeRect.y,
      width := freeRect.width - placedRect.width,
      height := if splitHorizontal then placedRect.height else freeRect.height,
      id := 0, isRotated := false, rotatedCount := 0 }
  (if bottom.width > 0 ∧ bottom.height > 0 then [bottom] else []) ++
  (if right.width > 0 ∧ right.height > 0 then [right] else [])

/-- The split-direction choice of `guillotinePack.splitByHeuristic`. -/
def splitHorizontalChoice (splitMethod : Nat) (freeRect placedRect : Rect2D) : Bool :=
  let w := freeRect.width - placedRect.width
  let h := freeRect.height - placedRect.height
  if splitMethod = 0x0000 then decide (w ≤ h)                     -- ShorterLeftoverAxis
  else if splitMethod = 0x0100 then decide (w > h)                -- LongerLeftoverAxis
  else if splitMethod = 0x0200 then decide (placedRect.width * h > w * placedRect.height)
  else if splitMethod = 0x0300 then decide (placedRect.width * h ≤ w * placedRect.height)
  else if splitMethod = 0x0400 then decide (freeRect.width ≤ freeRect.height)
  else if splitMethod = 0x0500 then decide (freeRect.width > freeRect.height)
  else true

/-- `splitByHeuristic`: children produced by the chosen guillotine cut. -/
def splitChildren (splitMethod : Nat) (freeRect placedRect : Rect2D) : List Rect2D :=
  splitAlongAxisF freeRect placedRect (splitHorizontalChoice splitMethod freeRect placedRect)

/-- `guillotinePack.mergeFreeList`, inner loop over `j` (faithful to the
source, which compares `freeRects[i]` against itself in every condition;
with a deleted element the Go code decrements `j` and re-increments it, so
`j` is unchanged).  Fuel dominates the iteration count. -/
def mergeInner : Nat → List Rect2D → Nat → Nat → List Rect2D
  | 0, l, _, _ => l
  | fuel + 1, l, i, j =>
    if j < l.length then
      let ri := l.getD i ⟨0, 0, 0, 0, 0, false, 0⟩
      if ri.width = ri.width ∧ ri.x = ri.x then
        if ri.y = ri.y + ri.height then
          mergeInner fuel
            ((l.set i { ri with y := ri.y - ri.height, height := ri.height + ri.height }).eraseIdx j) i j
        else if ri.y + ri.height = ri.y then
          mergeInner fuel ((l.set i { ri with height := ri.height + ri.height }).eraseIdx j) i j
        else mergeInner fuel l i (j + 1)
      else if ri.height = ri.height ∧ ri.y = ri.y then
        if ri.x = ri.x + ri.width then
          mergeInner fuel
            ((l.set i { ri with x := ri.x - ri.width, width := ri.width + ri.width }).eraseIdx j) i j
        else if ri.x + ri.width = ri.x then
          mergeInner fuel ((l.set i { ri with width := ri.width + ri.width }).eraseIdx j) i j
        else mergeInner fuel l i (j + 1)
      else mergeInner fuel l i (j + 1)
    else l

/-- `mergeFreeList`, outer loop over `i`. -/
def mergeOuter : Nat → List Rect2D → Nat → List Rect2D
  | 0, l, _ => l
  | fuel + 1, l, i =>
    if i < l.length then mergeOuter fuel (mergeInner l.length l i (i + 1)) (i + 1) else l

/-- `guillotinePack.mergeFreeList`. -/
def mergeFreeListF (l : List Rect2D) : List Rect2D := mergeOuter l.length l 0

/-- The placement step of `guillotinePack.Insert` once the best candidate is
known: build `newNode` from the free rectangle's corner and the *unpadded*
size, split the free rectangle by the placed node, delete it, optionally run
the merge pass, account the node's area, unpad the node and append it to
`packed`. -/
def placeBest (st : GuillotineState) (padding : Int) (sizes : List Size2D) (b : Best) :
    GuillotineState :=
  let f := st.freeRects.getD b.freeIdx ⟨0, 0, 0, 0, 0, false, 0⟩
  let sz := sizes.getD b.rectIdx ⟨0, 0, 0⟩
  let node : Rect2D :=
    if b.flipped then ⟨f.x, f.y, sz.height, sz.width, sz.id, true, 1⟩
    else ⟨f.x, f.y, sz.width, sz.height, sz.id, false, 0⟩
  let newFree := (st.freeRects.eraseIdx b.freeIdx) ++ splitChildren st.splitMethod f node
  let newFree := if st.merge then mergeFreeListF newFree else newFree
  { st with
    freeRects := newFree,
    usedArea := st.usedArea + rectArea node,
    rotCount := fun k => if k = node.id then st.rotCount k + node.rotatedCount else st.rotCount k,
    packed := st.packed ++ [unpadRectF node padding] }

/-- The `for len(sizes) > 0` loop of `guillotinePack.Insert`; each placement
deletes the chosen size, so `sizes.length` fuel dominates the iterations. -/
def insertGo : Nat → GuillotineState → Int → List Size2D → GuillotineState × List Size2D
  | 0, st, _, sizes => (st, sizes)
  | fuel + 1, st, padding, sizes =>
    if sizes.isEmpty then (st, sizes)
    else
      let b := findBest st padding sizes
      if b.score = maxIntGo then (st, sizes)
      else insertGo fuel (placeBest st padding sizes b) padding (sizes.eraseIdx b.rectIdx)

/-- `guillotinePack.Insert`: returns the state after all placements and the
leftover sizes. -/
def guillotineInsert (st : GuillotineState) (padding : Int) (sizes : List Size2D) :
    GuillotineState × List Size2D :=
  insertGo sizes.length st padding sizes

/-- A call against the Guillotine engine: `Reset`, `Insert`, or setting the
public `Merge` field / `AllowRotate`. -/
inductive GCall where
  | reset (width height : Int)
  | insert (padding : Int) (sizes : List Size2D)
  | allowRotate (b : Bool)
  | setMerge (b : Bool)
deriving DecidableEq

/-- Apply one call to the Guillotine state (the leftovers of `Insert` are
dropped here; `CallsOk` constrains them separately). -/
def applyCall (st : GuillotineState) : GCall → GuillotineState
  | .reset w h => guillotineReset st w h
  | .insert p szs => (guillotineInsert st p szs).1
  | .allowRotate b => { st with allowRotate := b }
  | .setMerge b => { st with merge := b }

/-- Run a sequence of calls. -/
def runCalls (st : GuillotineState) (cs : List GCall) : GuillotineState :=
  cs.foldl applyCall st

/-- All sizes of an `insert` call have positive (≥ 1) dimensions, the spec's
validity invariant for rectangles. -/
def callSizesValid : GCall → Prop
  | .insert _ szs => ∀ sz ∈ szs, 1 ≤ sz.width ∧ 1 ≤ sz.height
  | _ => True

instance : DecidablePred callSizesValid := by
  intro c; cases c <;> simp only [callSizesValid] <;> infer_instance

/-- Every `insert` call in the sequence packs all of its sizes (empty
leftover list). -/
def CallsOk : GuillotineState → List GCall → Prop
  | _, [] => True
  | st, c :: rest =>
    (match c with
     | .insert p szs => (guillotineInsert st p szs).2 = []
     | _ => True) ∧ CallsOk (applyCall st c) rest

instance instDecCallsOk : ∀ (st : GuillotineState) (cs : List GCall), Decidable (CallsOk st cs)
  | _, [] => isTrue trivial
  | st, c :: rest =>
    have h1 : Decidable (match c with
       | GCall.insert p szs => (guillotineInsert st p szs).2 = []
       | _ => True) := by cases c <;> simp only <;> infer_instance
    have h2 : Decidable (CallsOk (applyCall st c) rest) := instDecCallsOk (applyCall st c) rest
    @instDecidableAnd _ _ h1 h2

/-! ### Base algorithm (src/rectpack/algorithm.go) -/

/-- State of `algorithmBase` (shared fields of all engines). -/
structure BaseState where
  maxWidth : Int
  maxHeight : Int
  usedArea : Int
  allowRotate : Bool
  packed : List Rect2D
deriving Repr

/-- `algorithmBase.Reset`. -/
def baseReset (st : BaseState) (width height : Int) : BaseState :=
  { st with maxWidth := width, maxHeight := height, usedArea := 0, packed := [] }

/-- Loop of `algorithmBase.Insert`: sequential row placement with a running
cursor `(x, y)` and current row height; sizes that would exceed the height
limit are appended to `unpacked`. -/
def baseInsertLoop (maxWidth maxHeight padding : Int) :
    List Size2D → Int → Int → Int → List Rect2D → Int → List Size2D →
    (List Rect2D × Int × List Size2D)
  | [], _, _, _, packed, usedArea, unpacked => (packed, usedArea, unpacked)
  | size :: rest, x, y, rowHeight, packed, usedArea, unpacked =>
    let width := size.width
    let height := size.height
    let wrap := x + width + padding > maxWidth
    let x1 := if wrap then 0 else x
    let y1 := if wrap then y + rowHeight + padding else y
    let rowHeight1 := if wrap then 0 else rowHeight
    if y1 + height + padding > maxHeight then
      baseInsertLoop maxWidth maxHeight padding rest x1 y1 rowHeight1 packed usedArea
        (unpacked ++ [size])
    else
      let rect : Rect2D := ⟨x1, y1, width, height, size.id, false, 0⟩
      baseInsertLoop maxWidth maxHeight padding rest (x1 + width + padding) y1
        (if height > rowHeight1 then height else rowHeight1)
        (packed ++ [rect]) (usedArea + width * height) unpacked

/-- `algorithmBase.Insert`. -/
def baseInsert (st : BaseState) (padding : Int) (sizes : List Size2D) :
    BaseState × List Size2D :=
  let r := baseInsertLoop st.maxWidth st.maxHeight padding sizes 0 0 0 st.packed st.usedArea []
  ({ st with packed := r.1, usedArea := r.2.1 }, r.2.2)

/-! ### Packer façade (src/rectpack/packer.go) -/

/-- The `packAlgorithm` interface, as a bundle of operations over an opaque
state type `σ` (dynamic dispatch in Go). -/
structure PackAlgorithm (σ : Type) where
  Reset : σ → Int → Int → σ
  Insert : σ → Int → List Size2D → σ × List Size2D
  GetPackedRects : σ → List Rect2D
  MaxSize : σ → Size2D
  GetUsedArea : σ → Int

/-- The `Packer` state (the algorithm operations are passed alongside). -/
structure Packer (σ : Type) where
  unpackedSize2Ds : List Size2D
  algoState : σ
  sortFunc : Option (Size2D → Size2D → Int)
  padding : Int
  sortRev : Bool
  Online : Bool

/-- `Packer.Insert`: online mode forwards to the algorithm, offline mode
appends to the pending queue and returns the whole queue. -/
def packerInsert (A : PackAlgorithm σ) (p : Packer σ) (sizes : List Size2D) :
    Packer σ × List Size2D :=
  if p.Online then
    let r := A.Insert p.algoState p.padding sizes
    ({ p with algoState := r.1 }, r.2)
  else
    let q := p.unpackedSize2Ds ++ sizes
    ({ p with unpackedSize2Ds := q }, q)

/-- `Packer.InsertNewSize2D`. -/
def packerInsertNewSize2D (A : PackAlgorithm σ) (p : Packer σ) (id width height : Int) :
    Packer σ × Bool :=
  let r := packerInsert A p [⟨width, height, id⟩]
  (r.1, if p.Online ∧ r.2.length ≠ 0 then false else true)

/-- `Packer.MinSize`: smallest size containing all packed rectangles
(each extended by the padding), starting from the zero size. -/
def packerMinSize (A : PackAlgorithm σ) (p : Packer σ) : Size2D :=
  (A.GetPackedRects p.algoState).foldl
    (fun size rect =>
      ⟨max size.width (rect.x + rect.width + p.padding),
       max size.height (rect.y + rect.height + p.padding), size.id⟩)
    ⟨0, 0, 0⟩

/-- The sorted pending queue used by `Packer.Pack` (`slices.SortFunc` with
the configured comparator, reversed comparator when `sortRev`, and a plain
reversal when no comparator is set but `sortRev` is; Go's sort is modelled
by a deterministic merge sort over the comparator's non-positive relation). -/
def sortedQueue (p : Packer σ) : List Size2D :=
  match p.sortFunc with
  | some f =>
    if p.sortRev then p.unpackedSize2Ds.mergeSort (fun a b => f b a ≤ 0)
    else p.unpackedSize2Ds.mergeSort (fun a b => f a b ≤ 0)
  | none => if p.sortRev then p.unpackedSize2Ds.reverse else p.unpackedSize2Ds

/-- `Packer.Pack`: an empty queue succeeds immediately; otherwise sort, hand
the queue to the algorithm's `Insert`, keep the failures as the new queue and
succeed exactly when there are none. -/
def packerPack (A : PackAlgorithm σ) (p : Packer σ) : Packer σ × Bool :=
  if p.unpackedSize2Ds.isEmpty then (p, true)
  else
    let r := A.Insert p.algoState p.padding (sortedQueue p)
    if r.2.isEmpty then ({ p with algoState := r.1, unpackedSize2Ds := [] }, true)
    else ({ p with algoState := r.1, unpackedSize2Ds := r.2 }, false)

/-- `int(math.Sqrt(float64 n))` of `Packer.Shrink`, modelled exactly over
the integers as the floor square root (Newton iteration with structural
fuel; Go computes the same value through `float64` at the magnitudes
involved). -/
def isqrtAux (n : Nat) : Nat → Nat → Nat
  | 0, guess => guess
  | fuel + 1, guess =>
    let next := (guess + n / guess) / 2
    if next < guess then isqrtAux n fuel next else guess

/-- Floor square root entry point. -/
def intSqrtGo (n : Int) : Int :=
  let m := n.toNat
  if m ≤ 1 then (m : Int) else (isqrtAux m m (m / 2) : Int)

/-- The `for !successful && maxSize < 10000` doubling loop of
`Packer.Shrink`.  `none` models a run that exceeds the fuel. -/
def shrinkDoubleLoop (A : PackAlgorithm σ) (padding : Int) (sizes : List Size2D) :
    Nat → σ → Int → Bool → Option (σ × Int × Bool)
  | 0, _, _, _ => none
  | fuel + 1, st, maxSize, successful =>
    if ¬successful ∧ maxSize < 10000 then
      let m := maxSize * 2
      let r := A.Insert (A.Reset st m m) padding sizes
      shrinkDoubleLoop A padding sizes fuel r.1 m r.2.isEmpty
    else some (st, maxSize, successful)

/-- The binary-search loop of `Packer.Shrink` over square side lengths. -/
def shrinkBinLoop (A : PackAlgorithm σ) (padding : Int) (sizes : List Size2D) :
    Nat → σ → Int → Int → Int → Option (σ × Int)
  | 0, _, _, _, _ => none
  | fuel + 1, st, minSize, maxSize, bestSize =>
    if minSize < maxSize - 1 then
      let midSize := Int.tdiv (minSize + maxSize) 2
      let r := A.Insert (A.Reset st midSize midSize) padding sizes
      if r.2.isEmpty then shrinkBinLoop A padding sizes fuel r.1 minSize midSize midSize
      else shrinkBinLoop A padding sizes fuel r.1 midSize maxSize bestSize
    else some (st, bestSize)

/-- The height-descent loop of `Packer.Shrink` (width held fixed). -/
def shrinkHeightLoop (A : PackAlgorithm σ) (padding : Int) (sizes : List Size2D)
    (optimalWidth lowerBound : Int) :
    Nat → σ → Int → Int → Option (σ × Int)
  | 0, _, _, _ => none
  | fuel + 1, st, h, optimalHeight =>
    if h ≥ lowerBound then
      let r := A.Insert (A.Reset st optimalWidth h) padding sizes
      if r.2.isEmpty then
        shrinkHeightLoop A padding sizes optimalWidth lowerBound fuel r.1 (h - 1) h
      else some (r.1, optimalHeight)
    else some (st, optimalHeight)

/-- The width-descent loop of `Packer.Shrink` (height held fixed). -/
def shrinkWidthLoop (A : PackAlgorithm σ) (padding : Int) (sizes : List Size2D)
    (optimalHeight lowerBound : Int) :
    Nat → σ → Int → Int → Option (σ × Int)
  | 0, _, _, _ => none
  | fuel + 1, st, w, optimalWidth =>
    if w ≥ lowerBound then
      let r := A.Insert (A.Reset st w optimalHeight) padding sizes
      if r.2.isEmpty then
        shrinkWidthLoop A padding sizes optimalHeight lowerBound fuel r.1 (w - 1) w
      else some (r.1, optimalWidth)
    else some (st, optimalWidth)

/-- `Packer.Shrink`.  Returns `none` when a loop exceeds its fuel, otherwise
the updated packer and the boolean result, mirroring every early return of
the Go function. -/
def packerShrink (A : PackAlgorithm σ) (fuel : Nat) (p : Packer σ) : Option (Packer σ × Bool) :=
  if p.unpackedSize2Ds.length ≠ 0 then some (p, false)
  else
    let totalArea := A.GetUsedArea p.algoState
    if totalArea = 0 then some (p, false)
    else
      let rects := A.GetPackedRects p.algoState
      if rects.length = 0 then some (p, false)
      else
        let origSize := A.MaxSize p.algoState
        let maxWidth0 := rects.foldl (fun acc r => max acc r.width) 0
        let maxHeight0 := rects.foldl (fun acc r => max acc r.height) 0
        let maxWidth := if p.padding > 0 then maxWidth0 + p.padding * 2 else maxWidth0
        let maxHeight := if p.padding > 0 then maxHeight0 + p.padding * 2 else maxHeight0
        -- Go: estimatedSize := int(float64(totalArea) * 1.2), modelled exactly
        let estimatedSize := Int.tdiv (totalArea * 12) 10
        let initialSize := max (max (intSqrtGo estimatedSize) maxWidth) maxHeight
        let sizes := rects.map fun r => (⟨r.width, r.height, r.id⟩ : Size2D)
        let minSize := initialSize
        let maxSize := initialSize * 2
        let r0 := A.Insert (A.Reset p.algoState minSize minSize) p.padding sizes
        if r0.2.isEmpty then some ({ p with algoState := r0.1, unpackedSize2Ds := [] }, true)
        else
          match shrinkDoubleLoop A p.padding sizes fuel r0.1 maxSize false with
          | none => none
          | some (st1, maxSize1, successful) =>
            if ¬successful then
              let rr := A.Insert (A.Reset st1 origSize.width origSize.height) p.padding sizes
              some ({ p with algoState := rr.1 }, false)
            else
              match shrinkBinLoop A p.padding sizes fuel st1 minSize maxSize1 maxSize1 with
              | none => none
              | some (st2, bestSize) =>
                match shrinkHeightLoop A p.padding sizes bestSize (Int.tdiv bestSize 2) fuel
                    st2 (bestSize - 1) bestSize with
                | none => none
                | some (st3, optimalHeight) =>
                  match shrinkWidthLoop A p.padding sizes optimalHeight (Int.tdiv bestSize 2)
                      fuel st3 (bestSize - 1) bestSize with
                  | none => none
                  | some (st4, optimalWidth) =>
                    let rf := A.Insert (A.Reset st4 optimalWidth optimalHeight) p.padding sizes
                    if rf.2.isEmpty then
                      some ({ p with algoState := rf.1, unpackedSize2Ds := [] }, true)
                    else
                      let rr := A.Insert (A.Reset rf.1 origSize.width origSize.height)
                        p.padding sizes
                      some ({ p with algoState := rr.1 }, false)

/-- The `packAlgorithm` operations of the Guillotine engine. -/
def guillotineAlgo : PackAlgorithm GuillotineState where
  Reset := guillotineReset
  Insert := guillotineInsert
  GetPackedRects := fun st => st.packed
  MaxSize := fun st => ⟨st.maxWidth, st.maxHeight, 0⟩
  GetUsedArea := fun st => st.usedArea

/-- The `packAlgorithm` operations of the base (fallback) engine. -/
def baseAlgo : PackAlgorithm BaseState where
  Reset := baseReset
  Insert := baseInsert
  GetPackedRects := fun st => st.packed
  MaxSize := fun st => ⟨st.maxWidth, st.maxHeight, 0⟩
  GetUsedArea := fun st => st.usedArea

/-! ### Heuristic resolver (src/unnamed/part_002) and `NewPacker`
(src/rectpack/packer.go) -/

/-- `ResolveAlgorithm`: deterministic string pair to heuristic bitmask;
every unknown combination falls through to the sentinel `99`. -/
def ResolveAlgorithmF (algo variant : String) : Nat :=
  if algo = "MaxRects" then
    if variant = "BestShortSideFit" then 0x00
    else if variant = "BottomLeft" then 0x30
    else if variant = "ContactPoint" then 0x40
    else if variant = "BestLongSideFit" then 0x10
    else if variant = "BestAreaFit" then 0x20
    else 99
  else if algo = "Guillotine" then
    if variant = "BestAreaFit" then 0x22
    else if variant = "BestShortSideFit" then 0x02
    else if variant = "BestLongSideFit" then 0x12
    else if variant = "WorstAreaFit" then 0x52
    else if variant = "WorstShortSideFit" then 0x62
    else if variant = "WorstLongSideFit" then 0x72
    else 99
  else 99

/-- The algorithm instance installed by `NewPacker`'s `switch` on the
algorithm bits (the `default` case installs a bare `algorithmBase` and sets
`sortFunc` to `nil`; it does not return an error). -/
inductive AlgoChoice where
  | maxRects
  | guillotine
  | base
deriving DecidableEq, Repr

/-- `NewPacker` (src/rectpack/packer.go, lines 332-352): an error only for
non-positive dimensions; otherwise the algorithm selected by the type bits,
falling back to `algorithmBase` for unknown algorithm bits. -/
def newPackerF (maxWidth maxHeight : Int) (heuristic : Nat) : Except String AlgoChoice :=
  if maxWidth ≤ 0 ∨ maxHeight ≤ 0 then
    .error "width and height must be greater than 0"
  else
    let t := heuristic &&& typeMask
    if t = 0x0 then .ok .maxRects
    else if t = 0x2 then .ok .guillotine
    else .ok .base

/-! ### Skyline engine (src/skyline.go)

The engine computes over `float64`.  Values are modelled as exact fractions
`F` of integers with cross-multiplication comparisons (well-formed values
have a positive denominator); every operation the engine performs (add,
subtract, multiply, compare, tolerance compare) is exact at the modelled
inputs, so no rounding behaviour is lost. -/

/-- Exact fraction standing in for a `float64` value. -/
structure F where
  num : Int
  den : Int
deriving DecidableEq, Repr

/-- Inject an integer. -/
def F.ofInt (n : Int) : F := ⟨n, 1⟩

/-- Well-formedness: positive denominator. -/
def F.WF (a : F) : Prop := 0 < a.den

instance (a : F) : Decidable (F.WF a) := by unfold F.WF; infer_instance

/-- Addition. -/
def F.add (a b : F) : F := ⟨a.num * b.den + b.num * a.den, a.den * b.den⟩

/-- Subtraction. -/
def F.sub (a b : F) : F := ⟨a.num * b.den - b.num * a.den, a.den * b.den⟩

/-- Multiplication. -/
def F.mul (a b : F) : F := ⟨a.num * b.num, a.den * b.den⟩

/-- Division (used only for the fill rate of the result record). -/
def F.div (a b : F) : F := ⟨a.num * b.den, a.den * b.num⟩

/-- Strict order (`<` on `float64`). -/
def F.flt (a b : F) : Prop := a.num * b.den < b.num * a.den

/-- Non-strict order (`>=`/`<=` on `float64`). -/
def F.fle (a b : F) : Prop := a.num * b.den ≤ b.num * a.den

/-- Value equality (`==` on `float64`). -/
def F.feq (a b : F) : Prop := a.num * b.den = b.num * a.den

instance (a b : F) : Decidable (F.flt a b) := by unfold F.flt; infer_instance

instance (a b : F) : Decidable (F.fle a b) := by unfold F.fle; infer_instance

instance (a b : F) : Decidable (F.feq a b) := by unfold F.feq; infer_instance

/-- `math.Abs`. -/
def F.fabs (a : F) : F := if a.num < 0 then ⟨-a.num, a.den⟩ else a

/-- The tolerance `1e-6` of `comparefloat64`. -/
def epsF : F := ⟨1, 1000000⟩

/-- `comparefloat64`: three-way comparison with tolerance `1e-6`. -/
def cmpF (a b : F) : Int :=
  if F.flt (F.fabs (F.sub a b)) epsF then 0
  else if F.flt a b then -1
  else 1

/-- `Rect` of skyline.go (a rectangle to be packed). -/
structure SRect where
  id : Nat
  w : F
  h : F
deriving DecidableEq, Repr

/-- A skyline segment. -/
structure SkyLine where
  x : F
  y : F
  len : F
deriving DecidableEq, Repr

/-- `PackedRect` of skyline.go. -/
structure SPackedRect where
  id : Nat
  x : F
  y : F
  w : F
  h : F
  isRotated : Bool
deriving DecidableEq, Repr

/-- Zero-valued segment (used as the out-of-range default of list lookups,
never observed in a faithful run). -/
def dfltSky : SkyLine := ⟨⟨0, 1⟩, ⟨0, 1⟩, ⟨0, 1⟩⟩

/-- `SkyLineHeap.Less`: by `y`, ties by `x` (raw `float64` comparisons). -/
def skyLess (a b : SkyLine) : Bool :=
  if F.feq a.y b.y then decide (F.flt a.x b.x) else decide (F.flt a.y b.y)

/-- `SkyLineHeap.Swap`. -/
def hswap (l : List SkyLine) (i j : Nat) : List SkyLine :=
  let a := l.getD i dfltSky
  let b := l.getD j dfltSky
  (l.set i b).set j a

/-- `container/heap.up` (sift towards the root). -/
def heapUp : Nat → List SkyLine → Nat → List SkyLine
  | 0, l, _ => l
  | fuel + 1, l, j =>
    let i := (j - 1) / 2
    if i = j ∨ ¬ skyLess (l.getD j dfltSky) (l.getD i dfltSky) then l
    else heapUp fuel (hswap l i j) i

/-- `container/heap.down` (sift towards the leaves); also returns the final
index, so callers can test whether the element moved. -/
def heapDown : Nat → List SkyLine → Nat → Nat → List SkyLine × Nat
  | 0, l, i, _ => (l, i)
  | fuel + 1, l, i, n =>
    let j1 := 2 * i + 1
    if j1 ≥ n then (l, i)
    else
      let j := if j1 + 1 < n ∧ skyLess (l.getD (j1 + 1) dfltSky) (l.getD j1 dfltSky)
        then j1 + 1 else j1
      if ¬ skyLess (l.getD j dfltSky) (l.getD i dfltSky) then (l, i)
      else heapDown fuel (hswap l i j) j n

/-- `heap.Push`. -/
def heapPush (l : List SkyLine) (s : SkyLine) : List SkyLine :=
  let l1 := l ++ [s]
  heapUp l1.length l1 (l1.length - 1)

/-- `heap.Pop`: move the root to the end, sift down, then remove the last
element (which is the popped minimum). -/
def heapPop (l : List SkyLine) : SkyLine × List SkyLine :=
  let n := l.length - 1
  let l1 := hswap l 0 n
  let l2 := (heapDown l1.length l1 0 n).1
  (l2.getD n dfltSky, l2.take n)

/-- `heap.Remove` (the removed value itself is discarded by the caller). -/
def heapRemove (l : List SkyLine) (i : Nat) : List SkyLine :=
  let n := l.length - 1
  let l1 :=
    if n ≠ i then
      let l2 := hswap l i n
      let d := heapDown l2.length l2 i n
      if d.2 > i then d.1 else heapUp d.1.length d.1 i
    else l
  l1.take n

/-- `addSkyLineInQueue`: push only segments of positive length
(under the tolerance comparison). -/
def addSkyLineInQueue (q : List SkyLine) (x y len : F) : List SkyLine :=
  if cmpF len ⟨0, 1⟩ = 1 then heapPush q ⟨x, y, len⟩ else q

/-- The wall-height scan of `SkyLinePacking.Pack`: walk the heap's backing
array, recording the left wall from a segment ending at `sk.x` and the right
wall from a segment starting at `sk.x + sk.len`, stopping after two hits. -/
def wallScan (sk : SkyLine) : List SkyLine → F → F → Nat → F × F
  | [], hl, hr, _ => (hl, hr)
  | line :: rest, hl, hr, count =>
    let r :=
      if cmpF (F.add line.x line.len) sk.x = 0 then (F.sub line.y sk.y, hr, count + 1)
      else if cmpF line.x (F.add sk.x sk.len) = 0 then (hl, F.sub line.y sk.y, count + 1)
      else (hl, hr, count)
    if r.2.2 = 2 then (r.1, r.2.1) else wallScan sk rest r.1 r.2.1 r.2.2

/-- `SkyLinePacking.score`.  `none` models the `panic` branches. -/
def scoreF (binH : F) (w h : F) (sk : SkyLine) (hl hr : F) : Option Int :=
  if cmpF sk.len w = -1 then some (-1)
  else if cmpF (F.add sk.y h) binH = 1 then some (-1)
  else if F.fle hr hl then
    if cmpF w sk.len = 0 ∧ cmpF h hl = 0 then some 7
    else if cmpF w sk.len = 0 ∧ cmpF h hr = 0 then some 6
    else if cmpF w sk.len = 0 ∧ cmpF h hl = 1 then some 5
    else if cmpF w sk.len = -1 ∧ cmpF h hl = 0 then some 4
    else if cmpF w sk.len = 0 ∧ cmpF h hl = -1 ∧ cmpF h hr = 1 then some 3
    else if cmpF w sk.len = -1 ∧ cmpF h hr = 0 then some 2
    else if cmpF w sk.len = 0 ∧ cmpF h hr = -1 then some 1
    else if cmpF w sk.len = -1 ∧ cmpF h hl ≠ 0 then some 0
    else none
  else
    if cmpF w sk.len = 0 ∧ cmpF h hr = 0 then some 7
    else if cmpF w sk.len = 0 ∧ cmpF h hl = 0 then some 6
    else if cmpF w sk.len = 0 ∧ cmpF h hr = 1 then some 5
    else if cmpF w sk.len = -1 ∧ cmpF h hr = 0 then some 4
    else if cmpF w sk.len = 0 ∧ cmpF h hr = -1 ∧ cmpF h hl = 1 then some 3
    else if cmpF w sk.len = -1 ∧ cmpF h hl = 0 then some 2
    else if cmpF w sk.len = 0 ∧ cmpF h hl = -1 then some 1
    else if cmpF w sk.len = -1 ∧ cmpF h hr ≠ 0 then some 0
    else none

/-- The best-rectangle selection loop of `SkyLinePacking.Pack`: scan the
unused rectangles (both orientations when rotation is enabled), keeping the
strictly best score.  Returns `(maxScore, maxRectIndex, isRotate)`; `none`
propagates a score panic. -/
def selectRect (binH : F) (rot : Bool) (sk : SkyLine) (hl hr : F) (used : List Bool) :
    List SRect → Nat → Int → Int → Bool → Option (Int × Int × Bool)
  | [], _, maxScore, maxIdx, isRot => some (maxScore, maxIdx, isRot)
  | r :: rest, i, maxScore, maxIdx, isRot =>
    if used.getD i false then selectRect binH rot sk hl hr used rest (i + 1) maxScore maxIdx isRot
    else
      match scoreF binH r.w r.h sk hl hr with
      | none => none
      | some score =>
        let s1 := if score > maxScore then (score, (i : Int), false) else (maxScore, maxIdx, isRot)
        if rot then
          match scoreF binH r.h r.w sk hl hr with
          | none => none
          | some rotateScore =>
            let s2 := if rotateScore > s1.1 then (rotateScore, (i : Int), true) else s1
            selectRect binH rot sk hl hr used rest (i + 1) s2.1 s2.2.1 s2.2.2
        else selectRect binH rot sk hl hr used rest (i + 1) s1.1 s1.2.1 s1.2.2

/-- `SkyLinePacking.placeLeft`: the packed rectangle and the two candidate
segments pushed afterwards. -/
def placeLeft (q : List SkyLine) (rect : SRect) (sk : SkyLine) (isRotate : Bool) :
    SPackedRect × List SkyLine :=
  let pr : SPackedRect :=
    if ¬isRotate then ⟨rect.id, sk.x, sk.y, rect.w, rect.h, isRotate⟩
    else ⟨rect.id, sk.x, sk.y, rect.h, rect.w, isRotate⟩
  let q1 := addSkyLineInQueue q sk.x (F.add sk.y pr.h) pr.w
  let q2 := addSkyLineInQueue q1 (F.add sk.x pr.w) sk.y (F.sub sk.len pr.w)
  (pr, q2)

/-- `SkyLinePacking.placeRight`. -/
def placeRight (q : List SkyLine) (rect : SRect) (sk : SkyLine) (isRotate : Bool) :
    SPackedRect × List SkyLine :=
  let pr : SPackedRect :=
    if ¬isRotate then
      ⟨rect.id, F.sub (F.add sk.x sk.len) rect.w, sk.y, rect.w, rect.h, isRotate⟩
    else ⟨rect.id, F.sub (F.add sk.x sk.len) rect.h, sk.y, rect.h, rect.w, isRotate⟩
  let q1 := addSkyLineInQueue q sk.x sk.y (F.sub sk.len pr.w)
  let q2 := addSkyLineInQueue q1 pr.x (F.add sk.y pr.h) pr.w
  (pr, q2)

/-- The adjacent-segment search of `combineSkylines` over the heap's backing
array: the first segment (in array order) whose `y` is not above the popped
segment's and which abuts it on either side; the merged segment is built
from the captured fields exactly as the Go assignments do. -/
def combineFind (q : List SkyLine) (sk : SkyLine) : Nat → Nat → Option (Nat × SkyLine)
  | 0, _ => none
  | fuel + 1, i =>
    if i < q.length then
      let line := q.getD i dfltSky
      if cmpF sk.y line.y ≠ 1 then
        if cmpF sk.x (F.add line.x line.len) = 0 then
          some (i, ⟨line.x, line.y, F.add line.len sk.len⟩)
        else if cmpF (F.add sk.x sk.len) line.x = 0 then
          some (i, ⟨sk.x, line.y, F.add line.len sk.len⟩)
        else combineFind q sk fuel (i + 1)
      else combineFind q sk fuel (i + 1)
    else none

/-- `SkyLinePacking.combineSkylines`: merge with the found neighbour and
re-push; if none is found the popped segment is dropped. -/
def combineSkylines (q : List SkyLine) (sk : SkyLine) : List SkyLine :=
  match combineFind q sk q.length 0 with
  | some (i, sk2) => heapPush (heapRemove q i) sk2
  | none => q

/-- One placement event of `SkyLinePacking.Pack`, recorded for analysis:
the popped segment, the wall heights, the winning score and the chosen
side (`placedRight`). -/
structure SEvent where
  skyline : SkyLine
  hl : F
  hr : F
  maxScore : Int
  isRotate : Bool
  placedRight : Bool
deriving DecidableEq, Repr

/-- The main loop of `SkyLinePacking.Pack`; returns the packed rectangles,
the accumulated area `totalS` and the trace of placement events.  `none`
models a `panic` (or exhausted fuel). -/
def packLoop (binW binH : F) (rects : List SRect) (rot : Bool) :
    Nat → List SkyLine → List Bool → List SPackedRect → F → List SEvent →
    Option (List SPackedRect × F × List SEvent)
  | 0, _, _, _, _, _ => none
  | fuel + 1, q, used, packed, totalS, events =>
    if q.length ≠ 0 ∧ packed.length < rects.length then
      let pr := heapPop q
      let sk := pr.1
      let q1 := pr.2
      let walls := wallScan sk q1 (F.sub binH sk.y) (F.sub binH sk.y) 0
      let hl := walls.1
      let hr := walls.2
      match selectRect binH rot sk hl hr used rects 0 (-1) (-1) false with
      | none => none
      | some (maxScore, maxRectIndex, isRotate) =>
        if maxScore ≥ 0 then
          let idx := maxRectIndex.toNat
          let rect := rects.getD idx ⟨0, ⟨0, 1⟩, ⟨0, 1⟩⟩
          let goRight : Bool :=
            if F.fle hr hl then decide (maxScore = 2)
            else decide (maxScore = 4 ∨ maxScore = 0)
          let pl := if goRight then placeRight q1 rect sk isRotate
            else placeLeft q1 rect sk isRotate
          let ev : SEvent := ⟨sk, hl, hr, maxScore, isRotate, goRight⟩
          packLoop binW binH rects rot fuel pl.2 (used.set idx true)
            (packed ++ [pl.1]) (F.add totalS (F.mul rect.w rect.h)) (events ++ [ev])
        else
          packLoop binW binH rects rot fuel (combineSkylines q1 sk) used packed totalS events
    else some (packed, totalS, events)

/-- `NewSkyLinePacking` followed by `Pack`: initial queue `[(0,0,w)]`. -/
def skylinePack (rot : Bool) (w h : F) (rects : List SRect) (fuel : Nat) :
    Option (List SPackedRect × F × List SEvent) :=
  packLoop w h rects rot fuel [⟨⟨0, 1⟩, ⟨0, 1⟩, w⟩] (rects.map fun _ => false) [] ⟨0, 1⟩ []

/-! ### Derived predicates used by the claims -/

/-- A rectangle lies within the bin `[0,W] × [0,H]`. -/
def inBoundsR (r : Rect2D) (W H : Int) : Prop :=
  0 ≤ r.x ∧ r.x + r.width ≤ W ∧ 0 ≤ r.y ∧ r.y + r.height ≤ H

instance (r : Rect2D) (W H : Int) : Decidable (inBoundsR r W H) := by
  unfold inBoundsR; infer_instance

/-- Pairwise non-overlap (`Intersects` false for every pair). -/
def NoOverlap (l : List Rect2D) : Prop :=
  l.Pairwise fun a b => ¬ intersects a b

/-- Sum of `Area()` over a list of rectangles. -/
def sumArea (l : List Rect2D) : Int :=
  l.foldl (fun a r => a + rectArea r) 0

/-- Two free rectangles that the spec's merge pass must coalesce: collinear
adjacent, sharing the common edge and the perpendicular dimension. -/
def MergeablePair (a b : Rect2D) : Prop :=
  (a.x = b.x ∧ a.width = b.width ∧ (a.y = b.y + b.height ∨ b.y = a.y + a.height)) ∨
  (a.y = b.y ∧ a.height = b.height ∧ (a.x = b.x + b.width ∨ b.x = a.x + a.width))

instance (a b : Rect2D) : Decidable (MergeablePair a b) := by
  unfold MergeablePair; infer_instance

/-- All paddings of the `insert` calls in a sequence are non-positive. -/
def callPadNonpos : GCall → Prop
  | .insert p _ => p ≤ 0
  | _ => True

instance : DecidablePred callPadNonpos := by
  intro c; cases c <;> simp only [callPadNonpos] <;> infer_instance

/-- The placement-side rule as written in the claim: left-aligned when
`hl ≥ hr` unless the score is `2`; right-aligned when `hl < hr` unless the
score is in `{4, 0}`. -/
def claimC8Rule (e : SEvent) : Prop :=
  (F.fle e.hr e.hl → (e.placedRight = true ↔ e.maxScore = 2)) ∧
  (¬ F.fle e.hr e.hl → (e.placedRight = true ↔ ¬ (e.maxScore = 4 ∨ e.maxScore = 0)))

instance (e : SEvent) : Decidable (claimC8Rule e) := by
  unfold claimC8Rule; infer_instance

/-- The placement-side rule the code implements: right-aligned when
`hl ≥ hr` exactly for score `2`, and when `hl < hr` exactly for scores
`4` and `0`. -/
def codeC8Rule (e : SEvent) : Prop :=
  (F.fle e.hr e.hl → (e.placedRight = true ↔ e.maxScore = 2)) ∧
  (¬ F.fle e.hr e.hl → (e.placedRight = true ↔ (e.maxScore = 4 ∨ e.maxScore = 0)))

instance (e : SEvent) : Decidable (codeC8Rule e) := by
  unfold codeC8Rule; infer_instance

/-- A size that fits the bin in no allowed orientation: its upright
orientation exceeds the bin dimensionwise, and so does the rotated one
whenever rotation is enabled. -/
def UnfitBoth (s : Size2D) (W H : Int) (rot : Bool) : Prop :=
  (W < s.width ∨ H < s.height) ∧ (rot = true → (W < s.height ∨ H < s.width))

instance (s : Size2D) (W H : Int) (rot : Bool) : Decidable (UnfitBoth s W H rot) := by
  unfold UnfitBoth; infer_instance

/-- `a` occupies a sub-box of `n` (axis-interval nesting). -/
def nestedR (a n : Rect2D) : Prop :=
  n.x ≤ a.x ∧ a.x + a.width ≤ n.x + n.width ∧
  n.y ≤ a.y ∧ a.y + a.height ≤ n.y + n.height

/-- The geometric invariant of the Guillotine engine: free rectangles are
within the bin and pairwise disjoint, packed rectangles are within the bin
and pairwise disjoint, and packed rectangles are disjoint from every free
rectangle. -/
structure GInv (st : GuillotineState) : Prop where
  freeIn : ∀ f ∈ st.freeRects, inBoundsR f st.maxWidth st.maxHeight
  freePW : st.freeRects.Pairwise fun a b => ¬ intersects a b
  packedIn : ∀ r ∈ st.packed, inBoundsR r st.maxWidth st.maxHeight
  packedPW : NoOverlap st.packed
  sep : ∀ r ∈ st.packed, ∀ f ∈ st.freeRects, ¬ intersects r f

/-- The fit condition established by each accepting branch of the scan
(the padded size fits the free rectangle, in the recorded orientation). -/
def FitCond (padding : Int) (f : Rect2D) (sz : Size2D) : Bool → Prop
  | false => (padSizeF sz padding).width ≤ f.width ∧ (padSizeF sz padding).height ≤ f.height
  | true => (padSizeF sz padding).height ≤ f.width ∧ (padSizeF sz padding).width ≤ f.height

/-- Validity of a scan result with respect to the free list and size list. -/
def BestValidL (frees : List Rect2D) (sizes : List Size2D) (padding : Int) (ar : Bool)
    (b : Best) : Prop :=
  b.freeIdx < frees.length ∧ b.rectIdx < sizes.length ∧
  FitCond padding (frees.getD b.freeIdx ⟨0, 0, 0, 0, 0, false, 0⟩)
    (sizes.getD b.rectIdx ⟨0, 0, 0⟩) b.flipped ∧
  (b.flipped = true → ar = true)

/-- Concrete input exhibiting the placement rule: bin 10×10, rectangles
4×2 and 3×2, rotation disabled. -/
def c8Input : List SRect := [⟨0, F.ofInt 4, F.ofInt 2⟩, ⟨1, F.ofInt 3, F.ofInt 2⟩]

/-- Default event for out-of-range trace lookups. -/
def dfltEvent : SEvent := ⟨dfltSky, ⟨0, 1⟩, ⟨0, 1⟩, 0, false, false⟩

/-- A fully packed Guillotine packer on which `Shrink` fails: bin
22000×8000, padding 1, three 7000×7000 rectangles (the shrink candidate
square exceeds the 10000 doubling cap). -/
def c5Packer : Packer GuillotineState :=
  { unpackedSize2Ds := [],
    algoState := (guillotineInsert (newGuillotineF 22000 8000 0x22 false) 1
      [⟨7000, 7000, 0⟩, ⟨7000, 7000, 1⟩, ⟨7000, 7000, 2⟩]).1,
    sortFunc := none, padding := 1, sortRev := false, Online := false }

/-! ### Geometry lemmas -/

theorem intersects_comm {a b : Rect2D} (h : intersects a b) : intersects b a := by
  unfold intersects at *; omega

theorem nestedR_refl (a : Rect2D) : nestedR a a := by
  unfold nestedR; omega

theorem nestedR_trans {a b c : Rect2D} (h1 : nestedR a b) (h2 : nestedR b c) : nestedR a c := by
  unfold nestedR at *; omega

theorem intersects_of_nested {a n b : Rect2D} (hn : nestedR a n) (h : intersects a b) :
    intersects n b := by
  unfold nestedR intersects at *; omega

theorem inBounds_of_nested {a n : Rect2D} {W H : Int} (hn : nestedR a n)
    (h : inBoundsR n W H) : inBoundsR a W H := by
  unfold nestedR inBoundsR at *; omega

theorem unpad_nested (node : Rect2D) (padding : Int) :
    nestedR (unpadRectF node padding) node := by
  unfold unpadRectF nestedR
  by_cases h0 : padding ≤ 0
  · simp [h0]
  · by_cases hx : node.x = 0 <;> by_cases hy : node.y = 0 <;> simp [h0, hx, hy] <;> omega

/-! ### Guillotine free-list invariant -/

theorem ginv_reset (st : GuillotineState) (w h : Int) : GInv (guillotineReset st w h) := by
  refine ⟨?_, ?_, ?_, ?_, ?_⟩
  · intro f hf
    simp only [guillotineReset, List.mem_singleton] at hf
    subst hf
    unfold inBoundsR
    simp only [guillotineReset]
    omega
  · simp [guillotineReset]
  · simp [guillotineReset]
  · simp [guillotineReset, NoOverlap]
  · simp [guillotineReset]

/-- From a pairwise-disjoint list, the element at index `i` is disjoint from
every element of the list with index `i` erased. -/
theorem pairwise_eraseIdx_pivot {α : Type} {R : α → α → Prop}
    (hsym : ∀ a b, R a b → R b a) :
    ∀ (l : List α) (i : Nat) (_ : l.Pairwise R) (hi : i < l.length),
      ∀ a ∈ l.eraseIdx i, R l[i] a := by
  intro l
  induction l with
  | nil => intro i _ hi; simp at hi
  | cons x xs ih =>
    intro i hpw hi a ha
    rcases List.pairwise_cons.mp hpw with ⟨hx, hxs⟩
    cases i with
    | zero =>
      simp only [List.eraseIdx] at ha
      simpa using hx a ha
    | succ j =>
      simp only [List.eraseIdx] at ha
      rcases List.mem_cons.mp ha with rfl | ha
      · have hj : j < xs.length := by simpa using hi
        simpa using hsym _ _ (hx _ (List.getElem_mem hj))
      · simpa using ih j hxs (by simpa using hi) a ha

theorem mem_of_mem_eraseIdx {α : Type} {l : List α} {i : Nat} {a : α}
    (h : a ∈ l.eraseIdx i) : a ∈ l :=
  (List.eraseIdx_sublist l i).subset h

/-! ### Split lemmas -/

theorem splitAlongAxis_mem {f node : Rect2D} {dir : Bool} {c : Rect2D}
    (hx : node.x = f.x) (hy : node.y = f.y)
    (hw0 : 0 ≤ node.width) (hw : node.width ≤ f.width)
    (hh0 : 0 ≤ node.height) (hh : node.height ≤ f.height)
    (hc : c ∈ splitAlongAxisF f node dir) :
    nestedR c f ∧ ¬ intersects node c ∧ ¬ intersects c node := by
  unfold splitAlongAxisF at hc
  simp only [List.mem_append] at hc
  rcases hc with hc | hc <;> split_ifs at hc <;>
      simp only [List.mem_singleton, List.not_mem_nil] at hc <;>
      (subst hc; unfold nestedR intersects; simp [hx, hy]; all_goals omega)

theorem splitAlongAxis_pairwise {f node : Rect2D} {dir : Bool}
    (hx : node.x = f.x) (hy : node.y = f.y)
    (hw0 : 0 ≤ node.width) (hw : node.width ≤ f.width)
    (hh0 : 0 ≤ node.height) (hh : node.height ≤ f.height) :
    (splitAlongAxisF f node dir).Pairwise fun a b => ¬ intersects a b := by
  unfold splitAlongAxisF
  split_ifs <;> dsimp only <;> split_ifs <;>
    simp only [List.singleton_append, List.nil_append, List.append_nil] <;>
    first
      | exact List.Pairwise.nil
      | exact List.pairwise_singleton _ _
      | · refine List.pairwise_cons.mpr ⟨?_, List.pairwise_singleton _ _⟩
          intro b hb
          rcases List.mem_singleton.mp hb with rfl
          unfold intersects
          simp [hx, hy]
          all_goals omega

theorem splitChildren_mem {m : Nat} {f node : Rect2D} {c : Rect2D}
    (hx : node.x = f.x) (hy : node.y = f.y)
    (hw0 : 0 ≤ node.width) (hw : node.width ≤ f.width)
    (hh0 : 0 ≤ node.height) (hh : node.height ≤ f.height)
    (hc : c ∈ splitChildren m f node) :
    nestedR c f ∧ ¬ intersects node c ∧ ¬ intersects c node :=
  splitAlongAxis_mem hx hy hw0 hw hh0 hh hc

theorem splitChildren_pairwise {m : Nat} {f node : Rect2D}
    (hx : node.x = f.x) (hy : node.y = f.y)
    (hw0 : 0 ≤ node.width) (hw : node.width ≤ f.width)
    (hh0 : 0 ≤ node.height) (hh : node.height ≤ f.height) :
    (splitChildren m f node).Pairwise fun a b => ¬ intersects a b :=
  splitAlongAxis_pairwise hx hy hw0 hw hh0 hh

/-! ### Merge-pass lemmas: the (buggy, self-comparing) merge pass only ever
rewrites an element to itself or deletes elements, so its result is a
sublist of its input. -/

theorem set_getD_self (l : List Rect2D) (i : Nat) (d : Rect2D) :
    l.set i (l.getD i d) = l := by
  induction l generalizing i with
  | nil => simp
  | cons x xs ih =>
    cases i with
    | zero => simp [List.getD]
    | succ j => simp only [List.getD_cons_succ, List.set_cons_succ, List.cons.injEq,
        true_and]; exact ih j

theorem rect_update_y_self (r : Rect2D) (hh : r.height = 0) :
    ({ r with y := r.y - r.height, height := r.height + r.height } : Rect2D) = r := by
  rw [hh]
  simp only [sub_zero, add_zero]
  rw [← hh]

theorem mergeInner_sublist :
    ∀ (fuel : Nat) (l : List Rect2D) (i j : Nat), (mergeInner fuel l i j).Sublist l := by
  intro fuel
  induction fuel with
  | zero => intro l i j; exact List.Sublist.refl l
  | succ fuel ih =>
    intro l i j
    unfold mergeInner
    by_cases hj : j < l.length
    · rw [if_pos hj]
      have htriv : (l.getD i ⟨0, 0, 0, 0, 0, false, 0⟩).width
            = (l.getD i ⟨0, 0, 0, 0, 0, false, 0⟩).width ∧
          (l.getD i ⟨0, 0, 0, 0, 0, false, 0⟩).x = (l.getD i ⟨0, 0, 0, 0, 0, false, 0⟩).x :=
        ⟨rfl, rfl⟩
      rw [if_pos htriv]
      by_cases h1 : (l.getD i ⟨0, 0, 0, 0, 0, false, 0⟩).y
          = (l.getD i ⟨0, 0, 0, 0, 0, false, 0⟩).y + (l.getD i ⟨0, 0, 0, 0, 0, false, 0⟩).height
      · rw [if_pos h1]
        rw [rect_update_y_self _ (by omega), set_getD_self]
        exact (ih _ i j).trans (List.eraseIdx_sublist l j)
      · rw [if_neg h1]
        by_cases h2 : (l.getD i ⟨0, 0, 0, 0, 0, false, 0⟩).y
            + (l.getD i ⟨0, 0, 0, 0, 0, false, 0⟩).height = (l.getD i ⟨0, 0, 0, 0, 0, false, 0⟩).y
        · exact absurd h2 (by omega)
        · rw [if_neg h2]
          exact ih l i (j + 1)
    · rw [if_neg hj]

theorem mergeOuter_sublist :
    ∀ (fuel : Nat) (l : List Rect2D) (i : Nat), (mergeOuter fuel l i).Sublist l := by
  intro fuel
  induction fuel with
  | zero => intro l i; exact List.Sublist.refl l
  | succ fuel ih =>
    intro l i
    unfold mergeOuter
    by_cases hi : i < l.length
    · rw [if_pos hi]
      exact (ih _ (i + 1)).trans (mergeInner_sublist _ l i (i + 1))
    · rw [if_neg hi]

theorem mergeFreeListF_sublist (l : List Rect2D) : (mergeFreeListF l).Sublist l :=
  mergeOuter_sublist l.length l 0

/-! ### Selection-scan validity: a returned candidate that beat the sentinel
score names in-range indices, a satisfiable fit, and only flips when
rotation is enabled. -/

theorem scanSizes_valid (sc : ScoreSel) (ar : Bool) (padding : Int)
    (frees : List Rect2D) (sizes : List Size2D) (f : Rect2D) (i : Nat)
    (hfi : i < frees.length) (hf : frees.getD i ⟨0, 0, 0, 0, 0, false, 0⟩ = f) :
    ∀ (l : List Size2D) (j : Nat) (_ : sizes.drop j = l) (best : Best),
      (best.score = maxIntGo ∨ BestValidL frees sizes padding ar best) →
      ((scanSizes sc ar padding f i l j best).score = maxIntGo ∨
        BestValidL frees sizes padding ar (scanSizes sc ar padding f i l j best)) := by
  intro l
  induction l with
  | nil => intro j _ best hbest; exact hbest
  | cons sz rest ih =>
    intro j hdrop best hbest
    have hj : sizes[j]? = some sz := by
      have h0 : (sizes.drop j)[0]? = some sz := by rw [hdrop]; simp
      simpa using h0
    have hjlen : j < sizes.length := (List.getElem?_eq_some_iff.mp hj).1
    have hjval : sizes.getD j ⟨0, 0, 0⟩ = sz := by
      simp [List.getD, hj]
    have hrest : sizes.drop (j + 1) = rest := by
      rw [← List.tail_drop, hdrop]; rfl
    unfold scanSizes
    by_cases hb1 : (padSizeF sz padding).width = f.width ∧ (padSizeF sz padding).height = f.height
    · rw [if_pos hb1]
      refine Or.inr ⟨hfi, hjlen, ?_, by simp⟩
      simp only [hf, hjval, FitCond]
      omega
    · rw [if_neg hb1]
      by_cases hb2 : ar = true ∧ (padSizeF sz padding).height = f.width ∧
          (padSizeF sz padding).width = f.height
      · rw [if_pos hb2]
        refine Or.inr ⟨hfi, hjlen, ?_, fun _ => hb2.1⟩
        simp only [hf, hjval, FitCond]
        omega
      · rw [if_neg hb2]
        by_cases hb3 : (padSizeF sz padding).width ≤ f.width ∧
            (padSizeF sz padding).height ≤ f.height
        · rw [if_pos hb3]
          apply ih (j + 1) hrest
          by_cases hup : scoreEval sc (padSizeF sz padding).width (padSizeF sz padding).height f
              < best.score
          · rw [if_pos hup]
            refine Or.inr ⟨hfi, hjlen, ?_, by simp⟩
            simp only [hf, hjval, FitCond]
            omega
          · rw [if_neg hup]; exact hbest
        · rw [if_neg hb3]
          by_cases hb4 : ar = true ∧ (padSizeF sz padding).height ≤ f.width ∧
              (padSizeF sz padding).width ≤ f.height
          · rw [if_pos hb4]
            apply ih (j + 1) hrest
            by_cases hup : scoreEval sc (padSizeF sz padding).height (padSizeF sz padding).width f
                < best.score
            · rw [if_pos hup]
              refine Or.inr ⟨hfi, hjlen, ?_, fun _ => hb4.1⟩
              simp only [hf, hjval, FitCond]
              omega
            · rw [if_neg hup]; exact hbest
          · rw [if_neg hb4]
            exact ih (j + 1) hrest best hbest

theorem scanFree_valid (sc : ScoreSel) (ar : Bool) (padding : Int)
    (frees : List Rect2D) (sizes : List Size2D) :
    ∀ (l : List Rect2D) (i : Nat) (_ : frees.drop i = l) (best : Best),
      (best.score = maxIntGo ∨ BestValidL frees sizes padding ar best) →
      ((scanFree sc ar padding sizes l i best).score = maxIntGo ∨
        BestValidL frees sizes padding ar (scanFree sc ar padding sizes l i best)) := by
  intro l
  induction l with
  | nil => intro i _ best hbest; exact hbest
  | cons g rest ih =>
    intro i hdrop best hbest
    have hi : frees[i]? = some g := by
      have h0 : (frees.drop i)[0]? = some g := by rw [hdrop]; simp
      simpa using h0
    have hilen : i < frees.length := (List.getElem?_eq_some_iff.mp hi).1
    have hival : frees.getD i ⟨0, 0, 0, 0, 0, false, 0⟩ = g := by
      simp [List.getD, hi]
    have hrest : frees.drop (i + 1) = rest := by
      rw [← List.tail_drop, hdrop]; rfl
    unfold scanFree
    exact ih (i + 1) hrest _ (scanSizes_valid sc ar padding frees sizes g i hilen hival
      sizes 0 rfl best hbest)

theorem findBest_valid (st : GuillotineState) (padding : Int) (sizes : List Size2D) :
    (findBest st padding sizes).score = maxIntGo ∨
      BestValidL st.freeRects sizes padding st.allowRotate (findBest st padding sizes) := by
  unfold findBest
  exact scanFree_valid st.score st.allowRotate padding st.freeRects sizes
    st.freeRects 0 rfl _ (Or.inl rfl)

/-! ### Invariant preservation through a placement -/

theorem padSizeF_width_ge (sz : Size2D) (p : Int) : sz.width ≤ (padSizeF sz p).width := by
  unfold padSizeF; split_ifs <;> simp <;> omega

theorem padSizeF_height_ge (sz : Size2D) (p : Int) : sz.height ≤ (padSizeF sz p).height := by
  unfold padSizeF; split_ifs <;> simp <;> omega

theorem ginv_placeBest {st : GuillotineState} {padding : Int} {sizes : List Size2D} {b : Best}
    (hinv : GInv st) (hv : BestValidL st.freeRects sizes padding st.allowRotate b)
    (hszs : ∀ sz ∈ sizes, 0 ≤ sz.width ∧ 0 ≤ sz.height) :
    GInv (placeBest st padding sizes b) := by
  obtain ⟨hfi, hsi, hfit, _⟩ := hv
  set dfR : Rect2D := ⟨0, 0, 0, 0, 0, false, 0⟩ with hdfR
  set f := st.freeRects.getD b.freeIdx dfR with hf
  set sz := sizes.getD b.rectIdx ⟨0, 0, 0⟩ with hsz
  have hszmem : sz ∈ sizes := by
    rw [hsz, List.getD_eq_getElem?_getD, List.getElem?_eq_getElem hsi]
    exact List.getElem_mem hsi
  have hsz0 := hszs sz hszmem
  set node : Rect2D :=
    (if b.flipped then ⟨f.x, f.y, sz.height, sz.width, sz.id, true, 1⟩
      else ⟨f.x, f.y, sz.width, sz.height, sz.id, false, 0⟩) with hnode
  have hnx : node.x = f.x := by rw [hnode]; split <;> rfl
  have hny : node.y = f.y := by rw [hnode]; split <;> rfl
  have hnw0 : 0 ≤ node.width := by rw [hnode]; split <;> simp <;> omega
  have hnh0 : 0 ≤ node.height := by rw [hnode]; split <;> simp <;> omega
  have hnw : node.width ≤ f.width := by
    have h1 := padSizeF_width_ge sz padding
    have h2 := padSizeF_height_ge sz padding
    rw [hnode]
    cases hb : b.flipped <;> simp only [hb, FitCond] at hfit <;> simp <;> omega
  have hnh : node.height ≤ f.height := by
    have h1 := padSizeF_width_ge sz padding
    have h2 := padSizeF_height_ge sz padding
    rw [hnode]
    cases hb : b.flipped <;> simp only [hb, FitCond] at hfit <;> simp <;> omega
  have hnodef : nestedR node f := by
    unfold nestedR; omega
  have hfmem : f ∈ st.freeRects := by
    rw [hf, List.getD_eq_getElem?_getD, List.getElem?_eq_getElem hfi]
    exact List.getElem_mem hfi
  have hfIn : inBoundsR f st.maxWidth st.maxHeight := hinv.freeIn f hfmem
  -- facts about the children of the split
  have hchild : ∀ c ∈ splitChildren st.splitMethod f node,
      nestedR c f ∧ ¬ intersects node c ∧ ¬ intersects c node :=
    fun c hc => splitChildren_mem hnx hny hnw0 hnw hnh0 hnh hc
  have hchildPW : (splitChildren st.splitMethod f node).Pairwise fun a b => ¬ intersects a b :=
    splitChildren_pairwise hnx hny hnw0 hnw hnh0 hnh
  -- facts about the erased free list
  have hEmem : ∀ g ∈ st.freeRects.eraseIdx b.freeIdx, g ∈ st.freeRects :=
    fun g hg => mem_of_mem_eraseIdx hg
  have hfpivot : ∀ g ∈ st.freeRects.eraseIdx b.freeIdx, ¬ intersects f g := by
    intro g hg
    have hget : st.freeRects[b.freeIdx] = f := by
      rw [hf, List.getD_eq_getElem?_getD, List.getElem?_eq_getElem hfi]
      rfl
    have := pairwise_eraseIdx_pivot
      (fun a b h hint => h (intersects_comm hint)) st.freeRects b.freeIdx hinv.freePW hfi g hg
    rwa [hget] at this
  -- the packed node
  have hpn : nestedR (unpadRectF node padding) node := unpad_nested node padding
  have hpnf : nestedR (unpadRectF node padding) f := nestedR_trans hpn hnodef
  -- invariant for the combined new free list before the merge pass
  have hnewIn : ∀ g ∈ st.freeRects.eraseIdx b.freeIdx ++ splitChildren st.splitMethod f node,
      inBoundsR g st.maxWidth st.maxHeight := by
    intro g hg
    rcases List.mem_append.mp hg with hg | hg
    · exact hinv.freeIn g (hEmem g hg)
    · exact inBounds_of_nested (hchild g hg).1 hfIn
  have hnewPW : (st.freeRects.eraseIdx b.freeIdx
      ++ splitChildren st.splitMethod f node).Pairwise fun a b => ¬ intersects a b := by
    rw [List.pairwise_append]
    refine ⟨hinv.freePW.sublist (List.eraseIdx_sublist _ _), hchildPW, ?_⟩
    intro g hg c hc hint
    exact hfpivot g hg (intersects_of_nested (hchild c hc).1 (intersects_comm hint))
  have hnewSep : ∀ r ∈ st.packed,
      ∀ g ∈ st.freeRects.eraseIdx b.freeIdx ++ splitChildren st.splitMethod f node,
        ¬ intersects r g := by
    intro r hr g hg hint
    rcases List.mem_append.mp hg with hg | hg
    · exact hinv.sep r hr g (hEmem g hg) hint
    · exact hinv.sep r hr f hfmem
        (intersects_comm (intersects_of_nested (hchild g hg).1 (intersects_comm hint)))
  have hpnSep : ∀ g ∈ st.freeRects.eraseIdx b.freeIdx ++ splitChildren st.splitMethod f node,
      ¬ intersects (unpadRectF node padding) g := by
    intro g hg hint
    rcases List.mem_append.mp hg with hg | hg
    · exact hfpivot g hg (intersects_of_nested hpnf hint)
    · exact (hchild g hg).2.1 (intersects_of_nested hpn hint)
  -- the new free list (possibly after the merge pass) is a sublist
  set newFree0 := st.freeRects.eraseIdx b.freeIdx ++ splitChildren st.splitMethod f node
    with hnf0
  have hsub : ((if st.merge then mergeFreeListF newFree0 else newFree0) : List Rect2D).Sublist
      newFree0 := by
    split
    · exact mergeFreeListF_sublist newFree0
    · exact List.Sublist.refl _
  -- assemble
  have hmain : GInv { st with
      freeRects := if st.merge then mergeFreeListF newFree0 else newFree0,
      usedArea := st.usedArea + rectArea node,
      rotCount := fun k =>
        if k = node.id then st.rotCount k + node.rotatedCount else st.rotCount k,
      packed := st.packed ++ [unpadRectF node padding] } := by
    refine ⟨?_, ?_, ?_, ?_, ?_⟩ <;> dsimp only
    · intro g hg
      exact hnewIn g (hsub.subset hg)
    · exact hnewPW.sublist hsub
    · intro r hr
      rcases List.mem_append.mp hr with hr | hr
      · exact hinv.packedIn r hr
      · rcases List.mem_singleton.mp hr with rfl
        exact inBounds_of_nested hpnf hfIn
    · unfold NoOverlap
      rw [List.pairwise_append]
      refine ⟨hinv.packedPW, List.pairwise_singleton _ _, ?_⟩
      intro r hr c hc hint
      rcases List.mem_singleton.mp hc with rfl
      exact hinv.sep r hr f hfmem (intersects_comm (intersects_of_nested hpnf
        (intersects_comm hint)))
    · intro r hr g hg
      rcases List.mem_append.mp hr with hr | hr
      · exact hnewSep r hr g (hsub.subset hg)
      · rcases List.mem_singleton.mp hr with rfl
        exact hpnSep g (hsub.subset hg)
  exact hmain

/-! ### Invariant preservation through the insertion loop and call sequences -/

theorem ginv_insertGo :
    ∀ (fuel : Nat) (st : GuillotineState) (padding : Int) (sizes : List Size2D),
      GInv st → (∀ sz ∈ sizes, 0 ≤ sz.width ∧ 0 ≤ sz.height) →
      GInv (insertGo fuel st padding sizes).1 := by
  intro fuel
  induction fuel with
  | zero => intro st padding sizes hinv _; exact hinv
  | succ fuel ih =>
    intro st padding sizes hinv hszs
    unfold insertGo
    split
    · exact hinv
    · dsimp only
      split
      · exact hinv
      · rename_i hempty hscore
        rcases findBest_valid st padding sizes with hmax | hv
        · exact absurd hmax hscore
        · exact ih _ padding _ (ginv_placeBest hinv hv hszs)
            (fun sz hsz => hszs sz (mem_of_mem_eraseIdx hsz))

theorem ginv_guillotineInsert {st : GuillotineState} {padding : Int} {sizes : List Size2D}
    (hinv : GInv st) (hszs : ∀ sz ∈ sizes, 0 ≤ sz.width ∧ 0 ≤ sz.height) :
    GInv (guillotineInsert st padding sizes).1 :=
  ginv_insertGo sizes.length st padding sizes hinv hszs

/-- Validity of the sizes of a call, weakened to non-negativity. -/
theorem callSizesValid_nonneg {c : GCall} (h : callSizesValid c) :
    ∀ (p : Int) (szs : List Size2D), c = GCall.insert p szs →
      ∀ sz ∈ szs, 0 ≤ sz.width ∧ 0 ≤ sz.height := by
  intro p szs hc sz hsz
  subst hc
  have := h sz hsz
  omega

theorem ginv_applyCall {st : GuillotineState} {c : GCall} (hinv : GInv st)
    (hc : callSizesValid c) : GInv (applyCall st c) := by
  cases c with
  | reset w h => exact ginv_reset st w h
  | insert p szs =>
    exact ginv_guillotineInsert hinv (callSizesValid_nonneg hc p szs rfl)
  | allowRotate b => exact ⟨hinv.freeIn, hinv.freePW, hinv.packedIn, hinv.packedPW, hinv.sep⟩
  | setMerge b => exact ⟨hinv.freeIn, hinv.freePW, hinv.packedIn, hinv.packedPW, hinv.sep⟩

theorem ginv_runCalls {st : GuillotineState} (hinv : GInv st) :
    ∀ (cs : List GCall), (∀ c ∈ cs, callSizesValid c) → GInv (runCalls st cs) := by
  intro cs
  induction cs generalizing st with
  | nil => intro _; exact hinv
  | cons c rest ih =>
    intro hcs
    unfold runCalls at *
    rw [List.foldl_cons]
    exact ih (ginv_applyCall hinv (hcs c (List.mem_cons_self c rest))) fun d hd =>
      hcs d (List.mem_cons_of_mem c hd)

theorem ginv_newGuillotine (w h : Int) (heuristic : Nat) (rot : Bool) :
    GInv (newGuillotineF w h heuristic rot) :=
  ginv_reset _ w h

/-! ### State-field preservation lemmas -/

theorem placeBest_fields (st : GuillotineState) (padding : Int) (sizes : List Size2D)
    (b : Best) :
    (placeBest st padding sizes b).maxWidth = st.maxWidth ∧
    (placeBest st padding sizes b).maxHeight = st.maxHeight ∧
    (placeBest st padding sizes b).allowRotate = st.allowRotate ∧
    (placeBest st padding sizes b).merge = st.merge ∧
    (placeBest st padding sizes b).splitMethod = st.splitMethod ∧
    (placeBest st padding sizes b).score = st.score :=
  ⟨rfl, rfl, rfl, rfl, rfl, rfl⟩

theorem insertGo_fields :
    ∀ (fuel : Nat) (st : GuillotineState) (padding : Int) (sizes : List Size2D),
      (insertGo fuel st padding sizes).1.maxWidth = st.maxWidth ∧
      (insertGo fuel st padding sizes).1.maxHeight = st.maxHeight ∧
      (insertGo fuel st padding sizes).1.allowRotate = st.allowRotate := by
  intro fuel
  induction fuel with
  | zero => intro st padding sizes; exact ⟨rfl, rfl, rfl⟩
  | succ fuel ih =>
    intro st padding sizes
    unfold insertGo
    split
    · exact ⟨rfl, rfl, rfl⟩
    · dsimp only
      split
      · exact ⟨rfl, rfl, rfl⟩
      · exact ih _ padding _

theorem guillotineInsert_maxWidth (st : GuillotineState) (padding : Int)
    (sizes : List Size2D) :
    (guillotineInsert st padding sizes).1.maxWidth = st.maxWidth :=
  (insertGo_fields sizes.length st padding sizes).1

theorem guillotineInsert_maxHeight (st : GuillotineState) (padding : Int)
    (sizes : List Size2D) :
    (guillotineInsert st padding sizes).1.maxHeight = st.maxHeight :=
  (insertGo_fields sizes.length st padding sizes).2.1

/-! ### Area accounting (claim C3) -/

theorem sumArea_append (l : List Rect2D) (r : Rect2D) :
    sumArea (l ++ [r]) = sumArea l + rectArea r := by
  unfold sumArea
  rw [List.foldl_append]
  rfl

theorem unpadRectF_nonpos (node : Rect2D) {padding : Int} (h : padding ≤ 0) :
    unpadRectF node padding = node := by
  unfold unpadRectF
  rw [if_pos h]

theorem sumArea_placeBest {st : GuillotineState} {padding : Int} {sizes : List Size2D}
    {b : Best} (hpad : padding ≤ 0) (hst : sumArea st.packed = st.usedArea) :
    sumArea (placeBest st padding sizes b).packed = (placeBest st padding sizes b).usedArea := by
  show sumArea (st.packed ++ [unpadRectF _ padding]) = st.usedArea + rectArea _
  rw [sumArea_append, unpadRectF_nonpos _ hpad, hst]

theorem sumArea_insertGo :
    ∀ (fuel : Nat) (st : GuillotineState) (padding : Int) (sizes : List Size2D),
      padding ≤ 0 → sumArea st.packed = st.usedArea →
      sumArea (insertGo fuel st padding sizes).1.packed
        = (insertGo fuel st padding sizes).1.usedArea := by
  intro fuel
  induction fuel with
  | zero => intro st padding sizes _ h; exact h
  | succ fuel ih =>
    intro st padding sizes hpad h
    unfold insertGo
    split
    · exact h
    · dsimp only
      split
      · exact h
      · exact ih _ padding _ hpad (sumArea_placeBest hpad h)

theorem sumArea_runCalls {st : GuillotineState} (hst : sumArea st.packed = st.usedArea) :
    ∀ (cs : List GCall), (∀ c ∈ cs, callPadNonpos c) →
      sumArea (runCalls st cs).packed = (runCalls st cs).usedArea := by
  intro cs
  induction cs generalizing st with
  | nil => intro _; exact hst
  | cons c rest ih =>
    intro hcs
    unfold runCalls at *
    rw [List.foldl_cons]
    refine ih ?_ fun d hd => hcs d (List.mem_cons_of_mem c hd)
    have hc := hcs c (List.mem_cons_self c rest)
    cases c with
    | reset w h => simp [applyCall, guillotineReset, sumArea]
    | insert p szs =>
      exact sumArea_insertGo szs.length st p szs hc hst
    | allowRotate b => exact hst
    | setMerge b => exact hst

/-! ### Count preservation for oversized sizes (claim C4) -/

theorem count_eraseIdx_of_ne {l : List Size2D} {i : Nat} {s : Size2D}
    (hne : l.getD i ⟨0, 0, 0⟩ ≠ s) :
    (l.eraseIdx i).count s = l.count s := by
  induction l generalizing i with
  | nil => simp
  | cons x xs ih =>
    cases i with
    | zero =>
      simp only [List.getD_cons_zero] at hne
      simp only [List.eraseIdx_cons_zero, List.count_cons]
      have : ¬ (x == s) = true := by simpa using hne
      simp [this]
    | succ j =>
      simp only [List.getD_cons_succ] at hne
      simp only [List.eraseIdx_cons_succ, List.count_cons]
      rw [ih hne]

/-- An `UnfitBoth` size never satisfies the fit condition against an in-bin
free rectangle, so a valid scan result never points at it. -/
theorem unfit_not_selected {frees : List Rect2D} {sizes : List Size2D} {padding : Int}
    {ar : Bool} {b : Best} {W H : Int} {s : Size2D}
    (hfree : ∀ f ∈ frees, inBoundsR f W H)
    (hv : BestValidL frees sizes padding ar b)
    (hu : UnfitBoth s W H ar) :
    sizes.getD b.rectIdx ⟨0, 0, 0⟩ ≠ s := by
  obtain ⟨hfi, _, hfit, hflip⟩ := hv
  intro heq
  rw [heq] at hfit
  have hfmem : frees.getD b.freeIdx ⟨0, 0, 0, 0, 0, false, 0⟩ ∈ frees := by
    rw [List.getD_eq_getElem?_getD, List.getElem?_eq_getElem hfi]
    exact List.getElem_mem hfi
  have hfin := hfree _ hfmem
  have h1 := padSizeF_width_ge s padding
  have h2 := padSizeF_height_ge s padding
  unfold inBoundsR at hfin
  obtain ⟨hu1, hu2⟩ := hu
  cases hb : b.flipped with
  | false =>
    rw [hb] at hfit
    simp only [FitCond] at hfit
    omega
  | true =>
    rw [hb] at hfit
    simp only [FitCond] at hfit
    have := hu2 (hflip hb)
    omega

theorem unfit_count_insertGo :
    ∀ (fuel : Nat) (st : GuillotineState) (padding : Int) (sizes : List Size2D) (s : Size2D),
      GInv st → (∀ sz ∈ sizes, 0 ≤ sz.width ∧ 0 ≤ sz.height) →
      UnfitBoth s st.maxWidth st.maxHeight st.allowRotate →
      (insertGo fuel st padding sizes).2.count s = sizes.count s := by
  intro fuel
  induction fuel with
  | zero => intro st padding sizes s _ _ _; rfl
  | succ fuel ih =>
    intro st padding sizes s hinv hszs hu
    unfold insertGo
    split
    · rfl
    · dsimp only
      split
      · rfl
      · rename_i hempty hscore
        rcases findBest_valid st padding sizes with hmax | hv
        · exact absurd hmax hscore
        · have hne := unfit_not_selected hinv.freeIn hv hu
          have hfields := insertGo_fields fuel (placeBest st padding sizes
            (findBest st padding sizes)) padding
            (sizes.eraseIdx (findBest st padding sizes).rectIdx)
          rw [ih _ padding _ s (ginv_placeBest hinv hv hszs)
              (fun sz hsz => hszs sz (mem_of_mem_eraseIdx hsz)) ?_]
          · exact count_eraseIdx_of_ne hne
          · have hpf := placeBest_fields st padding sizes (findBest st padding sizes)
            rw [hpf.1, hpf.2.1, hpf.2.2.1]
            exact hu

/-! ### The base algorithm never places an over-tall size -/

theorem baseInsertLoop_tall_count (maxW maxH padding : Int) (s : Size2D)
    (hpad : 0 ≤ padding) (hs : maxH < s.height) :
    ∀ (sizes : List Size2D) (x y rowHeight : Int) (packed : List Rect2D) (usedArea : Int)
      (unpacked : List Size2D), 0 ≤ y → 0 ≤ rowHeight →
      (baseInsertLoop maxW maxH padding sizes x y rowHeight packed usedArea unpacked).2.2.count s
        = unpacked.count s + sizes.count s := by
  intro sizes
  induction sizes with
  | nil => intro x y rowHeight packed usedArea unpacked _ _; simp [baseInsertLoop]
  | cons size rest ih =>
    intro x y rowHeight packed usedArea unpacked hy hrh
    unfold baseInsertLoop
    dsimp only
    split <;> split <;> rename_i hw hfit
    · rw [ih _ _ _ _ _ _ (by omega) (by omega)]
      by_cases heq : s = size <;>
        simp [List.count_append, List.count_cons, heq] <;> try omega
    · have hne : s ≠ size := by
        intro heq
        rw [← heq] at hfit
        omega
      rw [ih _ _ _ _ _ _ (by omega) (by split <;> omega)]
      simp [List.count_cons, hne]
    · rw [ih _ _ _ _ _ _ (by omega) (by omega)]
      by_cases heq : s = size <;>
        simp [List.count_append, List.count_cons, heq] <;> try omega
    · have hne : s ≠ size := by
        intro heq
        rw [← heq] at hfit
        omega
      rw [ih _ _ _ _ _ _ (by omega) (by split <;> omega)]
      simp [List.count_cons, hne]

theorem baseInsert_tall_count (st : BaseState) (padding : Int) (sizes : List Size2D)
    (s : Size2D) (hpad : 0 ≤ padding) (hs : st.maxHeight < s.height) :
    (baseInsert st padding sizes).2.count s = sizes.count s := by
  unfold baseInsert
  dsimp only
  rw [baseInsertLoop_tall_count st.maxWidth st.maxHeight padding s hpad hs sizes 0 0 0
    st.packed st.usedArea [] le_rfl le_rfl]
  simp

/-! ## Claim theorems -/

/-- **C1** (confirmed): for the Guillotine engine, for every padding value and
every sequence of `Reset`/`Insert` calls (with valid rectangle sizes, i.e.
dimensions ≥ 1) that packs successfully, the packed rectangles are pairwise
non-overlapping (`Intersects` is false for every pair) and every packed
rectangle lies within `[0,W] × [0,H]`, where `(W,H)` is the bin's maximum
size. -/
theorem guillotine_packed_disjoint_in_bin (w h : Int) (heuristic : Nat) (rot : Bool)
    (cs : List GCall) (hvalid : ∀ c ∈ cs, callSizesValid c)
    (_hok : CallsOk (newGuillotineF w h heuristic rot) cs) :
    NoOverlap (runCalls (newGuillotineF w h heuristic rot) cs).packed ∧
    ∀ r ∈ (runCalls (newGuillotineF w h heuristic rot) cs).packed,
      inBoundsR r (runCalls (newGuillotineF w h heuristic rot) cs).maxWidth
        (runCalls (newGuillotineF w h heuristic rot) cs).maxHeight := by
  have hinv := ginv_runCalls (ginv_newGuillotine w h heuristic rot) cs hvalid
  exact ⟨hinv.packedPW, hinv.packedIn⟩

/-- Witness for C1: a concrete successful run. -/
theorem guillotine_packed_disjoint_in_bin_witness :
    (∀ c ∈ [GCall.insert 0 [(⟨2, 2, 5⟩ : Size2D)]], callSizesValid c) ∧
    CallsOk (newGuillotineF 10 10 0x22 false) [GCall.insert 0 [⟨2, 2, 5⟩]] ∧
    (NoOverlap (runCalls (newGuillotineF 10 10 0x22 false)
        [GCall.insert 0 [⟨2, 2, 5⟩]]).packed ∧
      ∀ r ∈ (runCalls (newGuillotineF 10 10 0x22 false) [GCall.insert 0 [⟨2, 2, 5⟩]]).packed,
        inBoundsR r (runCalls (newGuillotineF 10 10 0x22 false)
            [GCall.insert 0 [⟨2, 2, 5⟩]]).maxWidth
          (runCalls (newGuillotineF 10 10 0x22 false)
            [GCall.insert 0 [⟨2, 2, 5⟩]]).maxHeight) :=
  ⟨by decide, by decide,
    guillotine_packed_disjoint_in_bin 10 10 0x22 false _ (by decide) (by decide)⟩

/-- **C2** (confirmed): `Pack()` with an empty pending queue returns `true`
without invoking the algorithm; otherwise it hands the sorted queue to the
algorithm's `Insert`, keeps the returned leftovers as the new queue, and
returns `true` iff the leftovers are empty.  With nothing packed,
`MinSize` is `(0,0)`. -/
theorem packer_pack_contract {σ : Type} (A : PackAlgorithm σ) (p : Packer σ) :
    (p.unpackedSize2Ds = [] → packerPack A p = (p, true)) ∧
    (p.unpackedSize2Ds ≠ [] →
      packerPack A p =
        ({ p with algoState := (A.Insert p.algoState p.padding (sortedQueue p)).1,
                  unpackedSize2Ds := (A.Insert p.algoState p.padding (sortedQueue p)).2 },
          (A.Insert p.algoState p.padding (sortedQueue p)).2.isEmpty)) ∧
    (A.GetPackedRects p.algoState = [] →
      packerMinSize A p = ⟨0, 0, 0⟩) := by
  refine ⟨?_, ?_, ?_⟩
  · intro h
    unfold packerPack
    rw [if_pos (by simp [h])]
  · intro h
    unfold packerPack
    rw [if_neg (by simpa using h)]
    dsimp only
    by_cases hr : (A.Insert p.algoState p.padding (sortedQueue p)).2.isEmpty
    · rw [if_pos hr]
      have h2 : (A.Insert p.algoState p.padding (sortedQueue p)).2 = [] := by
        simpa [List.isEmpty_iff] using hr
      rw [h2]
      simp
    · rw [if_neg hr]
      have h2 : (A.Insert p.algoState p.padding (sortedQueue p)).2.isEmpty = false := by
        simpa using hr
      rw [h2]
  · intro h
    unfold packerMinSize
    rw [h]
    rfl

/-- Witness for C2: the Guillotine instantiation on concrete states. -/
theorem packer_pack_contract_witness :
    packerPack guillotineAlgo
        ⟨[], newGuillotineF 10 10 0x22 false, none, 0, false, false⟩ =
      (⟨[], newGuillotineF 10 10 0x22 false, none, 0, false, false⟩, true) ∧
    packerMinSize guillotineAlgo
        ⟨[], newGuillotineF 10 10 0x22 false, none, 0, false, false⟩ = ⟨0, 0, 0⟩ :=
  ⟨(packer_pack_contract guillotineAlgo _).1 rfl,
    (packer_pack_contract guillotineAlgo _).2.2 rfl⟩

/-- **C3** (counterexample): with padding 1, the Guillotine engine adds the
raw node area to `usedArea` but stores the unpadded rectangle, so the sum of
packed areas differs from `GetUsedArea()` on a state reachable by a single
`Insert`. -/
theorem guillotine_used_area_counterexample :
    sumArea (runCalls (newGuillotineF 10 10 0x22 false)
        [GCall.insert 1 [⟨3, 3, 0⟩]]).packed ≠
      (runCalls (newGuillotineF 10 10 0x22 false) [GCall.insert 1 [⟨3, 3, 0⟩]]).usedArea := by
  decide

/-- **C3** (amended): for every Guillotine state reachable by `Reset`
followed by `Insert` calls whose paddings are all non-positive (i.e. no
padding is applied), the sum of `Area()` over the packed rectangles equals
`GetUsedArea()`. -/
theorem guillotine_used_area_eq_sum (w h : Int) (heuristic : Nat) (rot : Bool)
    (cs : List GCall) (hpad : ∀ c ∈ cs, callPadNonpos c) :
    sumArea (runCalls (newGuillotineF w h heuristic rot) cs).packed
      = (runCalls (newGuillotineF w h heuristic rot) cs).usedArea := by
  refine sumArea_runCalls ?_ cs hpad
  simp [newGuillotineF, guillotineReset, sumArea]

/-- Witness for the amended C3. -/
theorem guillotine_used_area_eq_sum_witness :
    (∀ c ∈ [GCall.insert 0 [(⟨3, 3, 0⟩ : Size2D)]], callPadNonpos c) ∧
    sumArea (runCalls (newGuillotineF 10 10 0x22 false)
        [GCall.insert 0 [⟨3, 3, 0⟩]]).packed
      = (runCalls (newGuillotineF 10 10 0x22 false) [GCall.insert 0 [⟨3, 3, 0⟩]]).usedArea :=
  ⟨by decide, guillotine_used_area_eq_sum 10 10 0x22 false _ (by decide)⟩

/-- **C4** (counterexample): the base algorithm places a size whose width
exceeds the bin width (after the row wrap it ignores the width check), so
an oversized size can be placed and absent from the leftovers. -/
theorem oversized_placed_by_base_counterexample :
    (10 : Int) < 15 ∧
    (baseInsert (baseReset ⟨0, 0, 0, false, []⟩ 10 10) 0 [⟨15, 3, 0⟩]).2 = [] ∧
    (baseInsert (baseReset ⟨0, 0, 0, false, []⟩ 10 10) 0 [⟨15, 3, 0⟩]).1.packed
      = [⟨0, 0, 15, 3, 0, false, 0⟩] := by
  refine ⟨by decide, by decide, by decide⟩

/-- **C4** (amended): a size that fits in no allowed orientation is never
placed by the Guillotine engine's `Insert` — every copy of it is returned in
the leftover slice — and the base algorithm likewise never places a size
whose height exceeds the bin height (with non-negative padding); the base
algorithm's width check, however, is not restored after a row wrap. -/
theorem oversized_never_packed_amended (w h : Int) (heuristic : Nat) (rot : Bool)
    (cs : List GCall) (hvalid : ∀ c ∈ cs, callSizesValid c)
    (padding : Int) (sizes : List Size2D) (s : Size2D)
    (hszs : ∀ sz ∈ sizes, 0 ≤ sz.width ∧ 0 ≤ sz.height)
    (hu : UnfitBoth s (runCalls (newGuillotineF w h heuristic rot) cs).maxWidth
      (runCalls (newGuillotineF w h heuristic rot) cs).maxHeight
      (runCalls (newGuillotineF w h heuristic rot) cs).allowRotate)
    (bst : BaseState) (bpadding : Int) (bsizes : List Size2D) (bs : Size2D)
    (hbp : 0 ≤ bpadding) (hbs : bst.maxHeight < bs.height) :
    ((guillotineInsert (runCalls (newGuillotineF w h heuristic rot) cs)
        padding sizes).2.count s = sizes.count s ∧
      (s ∈ sizes →
        s ∈ (guillotineInsert (runCalls (newGuillotineF w h heuristic rot) cs)
          padding sizes).2)) ∧
    (baseInsert bst bpadding bsizes).2.count bs = bsizes.count bs := by
  have hinv := ginv_runCalls (ginv_newGuillotine w h heuristic rot) cs hvalid
  have hcount := unfit_count_insertGo sizes.length
    (runCalls (newGuillotineF w h heuristic rot) cs) padding sizes s hinv hszs hu
  refine ⟨⟨hcount, ?_⟩, baseInsert_tall_count bst bpadding bsizes bs hbp hbs⟩
  intro hmem
  have h1 : 0 < sizes.count s := List.count_pos_iff.mpr hmem
  have h2 : 0 < (guillotineInsert (runCalls (newGuillotineF w h heuristic rot) cs)
      padding sizes).2.count s := by
    unfold guillotineInsert
    omega
  exact List.count_pos_iff.mp h2

/-- Witness for the amended C4. -/
theorem oversized_never_packed_amended_witness :
    ((guillotineInsert (runCalls (newGuillotineF 10 20 0x22 true) [])
        0 [⟨25, 25, 7⟩]).2.count ⟨25, 25, 7⟩ = [(⟨25, 25, 7⟩ : Size2D)].count ⟨25, 25, 7⟩ ∧
      ((⟨25, 25, 7⟩ : Size2D) ∈ [(⟨25, 25, 7⟩ : Size2D)] →
        (⟨25, 25, 7⟩ : Size2D) ∈ (guillotineInsert (runCalls (newGuillotineF 10 20 0x22 true) [])
          0 [⟨25, 25, 7⟩]).2)) ∧
    (baseInsert (baseReset ⟨0, 0, 0, false, []⟩ 10 10) 0 [⟨3, 15, 1⟩]).2.count ⟨3, 15, 1⟩
      = [(⟨3, 15, 1⟩ : Size2D)].count ⟨3, 15, 1⟩ :=
  oversized_never_packed_amended 10 20 0x22 true [] (by decide) 0 [⟨25, 25, 7⟩] ⟨25, 25, 7⟩
    (by decide) (by decide) (baseReset ⟨0, 0, 0, false, []⟩ 10 10) 0 [⟨3, 15, 1⟩] ⟨3, 15, 1⟩
    (by decide) (by decide)

/-- **C6** (code bug): after inserting two 4×2 rectangles into a 6×6
Guillotine bin with `Merge` enabled, the free list retains a pair of
collinear adjacent free rectangles of equal `x` and width abutting in `y`
that the merge pass is supposed to coalesce: `mergeFreeList` compares each
rectangle against itself, so it never merges anything. -/
theorem guillotine_merge_left_unmerged :
    (newGuillotineF 6 6 0x22 false).merge = true ∧
    (guillotineInsert (newGuillotineF 6 6 0x22 false) 0 [⟨4, 2, 0⟩, ⟨4, 2, 1⟩]).1.freeRects
      = [⟨4, 0, 2, 2, 0, false, 0⟩, ⟨0, 4, 6, 2, 0, false, 0⟩, ⟨4, 2, 2, 2, 0, false, 0⟩] ∧
    MergeablePair ⟨4, 0, 2, 2, 0, false, 0⟩ ⟨4, 2, 2, 2, 0, false, 0⟩ ∧
    mergeFreeListF [⟨4, 0, 2, 2, 0, false, 0⟩, ⟨0, 4, 6, 2, 0, false, 0⟩,
      ⟨4, 2, 2, 2, 0, false, 0⟩]
      = [⟨4, 0, 2, 2, 0, false, 0⟩, ⟨0, 4, 6, 2, 0, false, 0⟩, ⟨4, 2, 2, 2, 0, false, 0⟩] := by
  refine ⟨by decide, by decide, by decide, by decide⟩

/-- **C7** (code bug): `ResolveAlgorithm` yields the sentinel `99` for an
unsupported pair, but `NewPacker` with the sentinel and positive dimensions
does not fail — its `default` branch silently installs the base algorithm,
contradicting its own documentation. -/
theorem resolve_unknown_newpacker_no_error :
    ResolveAlgorithmF "Skyline" "BottomLeft" = 99 ∧
    ResolveAlgorithmF "Foo" "Bar" = 99 ∧
    newPackerF 100 100 99 = Except.ok AlgoChoice.base := by
  refine ⟨by decide, by decide, by rfl⟩

/-- **C10** (confirmed): in offline mode, `Packer.Insert` appends the given
sizes to the pending queue and returns the entire accumulated queue, and
`InsertNewSize2D` returns `true` for every id, width and height. -/
theorem offline_insert_returns_whole_queue {σ : Type} (A : PackAlgorithm σ) (p : Packer σ)
    (h : p.Online = false) (sizes : List Size2D) (id width height : Int) :
    packerInsert A p sizes =
      ({ p with unpackedSize2Ds := p.unpackedSize2Ds ++ sizes },
        p.unpackedSize2Ds ++ sizes) ∧
    (packerInsertNewSize2D A p id width height).2 = true := by
  constructor
  · unfold packerInsert
    rw [if_neg (by simp [h])]
  · unfold packerInsertNewSize2D
    simp [h]

/-- Witness for C10: a concrete offline packer, with a size that can never
fit the bin. -/
theorem offline_insert_returns_whole_queue_witness :
    packerInsert guillotineAlgo
        ⟨[⟨1, 1, 0⟩], newGuillotineF 10 10 0x22 false, none, 0, false, false⟩ [⟨999, 999, 1⟩] =
      (⟨[⟨1, 1, 0⟩, ⟨999, 999, 1⟩], newGuillotineF 10 10 0x22 false, none, 0, false, false⟩,
        [⟨1, 1, 0⟩, ⟨999, 999, 1⟩]) ∧
    (packerInsertNewSize2D guillotineAlgo
      ⟨[⟨1, 1, 0⟩], newGuillotineF 10 10 0x22 false, none, 0, false, false⟩ 1 999 999).2
        = true :=
  offline_insert_returns_whole_queue guillotineAlgo _ rfl [⟨999, 999, 1⟩] 1 999 999

/-! ### Tolerance-comparison lemmas -/

/-- Arithmetic normal form of `comparefloat64`. -/
theorem cmpF_eval (a b : F) :
    cmpF a b =
      (if (if a.num * b.den - b.num * a.den < 0 then -(a.num * b.den - b.num * a.den)
            else a.num * b.den - b.num * a.den) * 1000000 < a.den * b.den then 0
       else if a.num * b.den < b.num * a.den then -1 else 1) := by
  unfold cmpF F.flt F.sub F.fabs epsF
  by_cases h : a.num * b.den - b.num * a.den < 0 <;> simp [h]

theorem cmpF_cases (a b : F) : cmpF a b = 0 ∨ cmpF a b = -1 ∨ cmpF a b = 1 := by
  unfold cmpF
  split_ifs <;> simp

/-- Antisymmetry of the tolerance comparison on well-formed values: if
`cmp a b` is not `-1`, then `cmp b a` is not `1`. -/
theorem cmpF_asym {a b : F} (ha : F.WF a) (hb : F.WF b) (h : cmpF a b ≠ -1) :
    cmpF b a ≠ 1 := by
  rw [cmpF_eval] at h
  rw [cmpF_eval]
  unfold F.WF at ha hb
  have hd : 0 < a.den * b.den := mul_pos ha hb
  rw [show b.den * a.den = a.den * b.den from mul_comm _ _]
  generalize a.num * b.den = m at h ⊢
  generalize b.num * a.den = k at h ⊢
  generalize a.den * b.den = d at h hd ⊢
  split_ifs at h ⊢ <;> omega

set_option maxHeartbeats 1600000 in
/-- **C9** (confirmed): on well-formed values, the Skyline score function is
total on its guarded domain: when the rectangle's width does not exceed the
segment length and `segment.y + h` does not exceed the bin height (both
under the tolerance comparison), `score` returns a value in `0..7` and
neither panic branch is reachable; otherwise it returns `-1`. -/
theorem skyline_score_total (binH w h : F) (sk : SkyLine) (hl hr : F)
    (hwf_w : F.WF w) (hwf_len : F.WF sk.len) :
    (cmpF sk.len w ≠ -1 ∧ cmpF (F.add sk.y h) binH ≠ 1 →
      ∃ n : Int, scoreF binH w h sk hl hr = some n ∧ 0 ≤ n ∧ n ≤ 7) ∧
    ((cmpF sk.len w = -1 ∨ cmpF (F.add sk.y h) binH = 1) →
      scoreF binH w h sk hl hr = some (-1)) := by
  constructor
  · rintro ⟨hg1, hg2⟩
    have ha1 : cmpF w sk.len ≠ 1 := cmpF_asym hwf_len hwf_w hg1
    have ha := cmpF_cases w sk.len
    have hb := cmpF_cases h hl
    have hc := cmpF_cases h hr
    unfold scoreF
    rw [if_neg hg1, if_neg hg2]
    by_cases hside : F.fle hr hl
    · rw [if_pos hside]
      split_ifs <;>
        first
          | exact ⟨_, rfl, by norm_num⟩
          | (exfalso; omega)
    · rw [if_neg hside]
      split_ifs <;>
        first
          | exact ⟨_, rfl, by norm_num⟩
          | (exfalso; omega)
  · rintro (hg | hg)
    · unfold scoreF
      rw [if_pos hg]
    · unfold scoreF
      by_cases h1 : cmpF sk.len w = -1
      · rw [if_pos h1]
      · rw [if_neg h1, if_pos hg]

/-- Witness for C9: a concrete score evaluation under the guards. -/
theorem skyline_score_total_witness :
    F.WF (F.ofInt 3) ∧ F.WF (F.ofInt 6) ∧
    (∃ n : Int, scoreF (F.ofInt 10) (F.ofInt 3) (F.ofInt 2)
        ⟨F.ofInt 4, F.ofInt 0, F.ofInt 6⟩ (F.ofInt 2) (F.ofInt 10) = some n ∧
      0 ≤ n ∧ n ≤ 7) :=
  ⟨by decide, by decide,
    (skyline_score_total (F.ofInt 10) (F.ofInt 3) (F.ofInt 2)
      ⟨F.ofInt 4, F.ofInt 0, F.ofInt 6⟩ (F.ofInt 2) (F.ofInt 10)
      (by decide) (by decide)).1 ⟨by decide, by decide⟩⟩

/-! ### The Skyline placement-side rule (claim C8) -/

/-- **C8** (counterexample): in the concrete run the second placement pops
segment `(4,0,6)` with `hl = 2 < hr = 10` and winning score `2 ∉ {4,0}`, yet
the rectangle is placed left-aligned — the claim's rule (right-aligned when
`hl < hr` unless the score is in `{4,0}`) is violated. -/
theorem skyline_placement_rule_counterexample :
    ((skylinePack false (F.ofInt 10) (F.ofInt 10) c8Input 20).map fun out =>
        out.2.2.getD 1 dfltEvent) =
      some ⟨⟨F.ofInt 4, F.ofInt 0, F.ofInt 6⟩, F.ofInt 2, F.ofInt 10, 2, false, false⟩ ∧
    ¬ claimC8Rule ⟨⟨F.ofInt 4, F.ofInt 0, F.ofInt 6⟩, F.ofInt 2, F.ofInt 10, 2, false, false⟩ ∧
    F.flt (F.ofInt 2) (F.ofInt 10) := by
  refine ⟨by decide, by decide, by decide⟩

theorem packLoop_events (binW binH : F) (rects : List SRect) (rot : Bool) :
    ∀ (fuel : Nat) (q : List SkyLine) (used : List Bool) (packed : List SPackedRect)
      (totalS : F) (events : List SEvent) (out : List SPackedRect × F × List SEvent),
      (∀ e ∈ events, codeC8Rule e) →
      packLoop binW binH rects rot fuel q used packed totalS events = some out →
      ∀ e ∈ out.2.2, codeC8Rule e := by
  intro fuel
  induction fuel with
  | zero =>
    intro q used packed totalS events out _ hout
    simp [packLoop] at hout
  | succ fuel ih =>
    intro q used packed totalS events out hev hout
    unfold packLoop at hout
    split at hout
    · dsimp only at hout
      split at hout
      · simp at hout
      · split at hout
        · refine ih _ _ _ _ _ out ?_ hout
          intro e he
          rcases List.mem_append.mp he with he | he
          · exact hev e he
          · rcases List.mem_singleton.mp he with rfl
            refine ⟨?_, ?_⟩ <;> intro hside <;> dsimp only
            · rw [if_pos hside]
              simp
            · rw [if_neg hside]
              simp
        · exact ih _ _ _ _ _ out hev hout
    · rw [Option.some_inj] at hout
      subst hout
      exact hev

/-- **C8** (amended): in every Skyline `Pack` run, whenever a rectangle with
the maximum score is placed on a popped segment with wall heights `hl`, `hr`:
if `hl ≥ hr` it is placed right-aligned exactly when the score is `2`
(left-aligned otherwise), and if `hl < hr` it is placed right-aligned exactly
when the score is in `{4, 0}` (left-aligned otherwise). -/
theorem skyline_placement_rule_amended (rot : Bool) (w h : F) (rects : List SRect)
    (fuel : Nat) (out : List SPackedRect × F × List SEvent)
    (hout : skylinePack rot w h rects fuel = some out) :
    ∀ e ∈ out.2.2, codeC8Rule e := by
  unfold skylinePack at hout
  exact packLoop_events w h rects rot fuel _ _ _ _ _ out (by simp) hout

/-- Witness for the amended C8: the concrete run above. -/
theorem skyline_placement_rule_amended_witness :
    ∃ out, skylinePack false (F.ofInt 10) (F.ofInt 10) c8Input 20 = some out ∧
      ∀ e ∈ out.2.2, codeC8Rule e := by
  cases hres : skylinePack false (F.ofInt 10) (F.ofInt 10) c8Input 20 with
  | none =>
    have hsome : (skylinePack false (F.ofInt 10) (F.ofInt 10) c8Input 20).isSome = true := by
      decide
    rw [hres] at hsome
    simp at hsome
  | some out =>
    exact ⟨out, rfl, skyline_placement_rule_amended false _ _ c8Input 20 out hres⟩

/-! ### Shrink failure behaviour (claim C5) -/

/-- **C5** (counterexample): `Shrink()` returns `false` and restores
`max_size`, but the packed rectangles are *not* the original placements —
the restore path re-inserts the already-unpadded sizes in packed order, so
positions, ids and (with padding) even dimensions differ. -/
theorem shrink_failure_counterexample :
    (packerShrink guillotineAlgo 100 c5Packer).map (fun r => r.2) = some false ∧
    (packerShrink guillotineAlgo 100 c5Packer).map
        (fun r => (r.1.algoState.maxWidth, r.1.algoState.maxHeight))
      = some (22000, 8000) ∧
    (packerShrink guillotineAlgo 100 c5Packer).map (fun r => r.1.algoState.packed)
      ≠ some c5Packer.algoState.packed := by
  refine ⟨by decide, by decide, by decide⟩

/-- **C5** (amended): whenever `Shrink()` returns `false` on a Guillotine
packer, the algorithm's `max_size` equals its value before the call (the
failure paths either leave the state untouched or `Reset` it to the saved
original size before re-inserting); the original placements themselves are
not restored in general. -/
theorem shrink_false_restores_max_size (fuel : Nat) (p p2 : Packer GuillotineState)
    (hres : packerShrink guillotineAlgo fuel p = some (p2, false)) :
    p2.algoState.maxWidth = p.algoState.maxWidth ∧
    p2.algoState.maxHeight = p.algoState.maxHeight := by
  unfold packerShrink at hres
  dsimp only at hres
  repeat' split at hres
  all_goals
    first
      | (simp only [Option.some_inj, Prod.mk.injEq] at hres
         obtain ⟨rfl, hb⟩ := hres
         first
           | exact Bool.noConfusion hb
           | (refine ⟨?_, ?_⟩ <;>
              simp [guillotineAlgo, guillotineInsert_maxWidth, guillotineInsert_maxHeight,
                guillotineReset]))
      | (exfalso; simp at hres)

/-- Witness for the amended C5: the concrete failing `Shrink` run. -/
theorem shrink_false_restores_max_size_witness :
    ∃ p2 : Packer GuillotineState,
      packerShrink guillotineAlgo 100 c5Packer = some (p2, false) ∧
      p2.algoState.maxWidth = c5Packer.algoState.maxWidth ∧
      p2.algoState.maxHeight = c5Packer.algoState.maxHeight := by
  cases hres : packerShrink guillotineAlgo 100 c5Packer with
  | none =>
    have hsome : (packerShrink guillotineAlgo 100 c5Packer).isSome = true := by decide
    rw [hres] at hsome
    simp at hsome
  | some r =>
    obtain ⟨p2, b⟩ := r
    have hb : b = false := by
      have h2 : (packerShrink guillotineAlgo 100 c5Packer).map (fun r => r.2)
          = some false := by decide
      rw [hres] at h2
      simpa using h2
    subst hb
    exact ⟨p2, rfl, shrink_false_restores_max_size 100 c5Packer p2 hres⟩

end RectPack2D
